import Mathlib

/-!
The packet distribution core of libdvbtee (`libdvbtee/output.cpp`).

A shallow embedding of `output_stream` (one sink with its ring buffer and PID
subscription set) and `output` (the multiplexer that owns the sinks by target
id), and of `multiscan`, the multi-tuner scan of the command line tool
(`dvbtee/dvbtee.cpp`), followed by theorems about the embedded functions.

Conventions.
* A byte is a `Nat`; a buffer `uint8_t*` is a `List Nat`, a C string a
  `List Char` (without its terminating NUL).
* A pointer (callback, context, interface) is a `Nat`, `0` being `NULL`.
* `std::map<int, output_stream>` is a list of `(id, stream)` pairs in
  ascending id order, which is the iteration order of `std::map`.
* The results of system calls (`socket`, `open`, `getaddrinfo`, `inet_aton`,
  `connect`, `sendto`) are supplied to the functions that make them.
* `output.h` and the ring buffer class are not part of the sources at hand;
  what is taken from them is marked `Modelled from the spec:`.
-/

namespace Dvbtee

/-! ## Ring buffer -/

/-- Modelled from the spec: the ring buffer class (`rbuf`, not in the sources).
Spec 4.1: a fixed-capacity byte store; `data` holds the unread bytes, oldest
first. -/
structure rbuf where
  capacity : Nat
  data : List Nat
deriving DecidableEq, Repr

/-- Modelled from the spec: `rbuf::write`, spec 4.1: "copies the given byte
range in only if the full range fits in remaining capacity; on success advances
the write cursor; on failure (insufficient space) performs no partial write and
returns failure". -/
def rbuf.write (r : rbuf) (bytes : List Nat) : Bool × rbuf :=
  if r.data.length + bytes.length ≤ r.capacity then
    (true, { r with data := r.data ++ bytes })
  else
    (false, r)

/-- Modelled from the spec: `rbuf::get_size`, spec 4.1: "returns currently
buffered byte count". -/
def rbuf.get_size (r : rbuf) : Nat := r.data.length

/-- Modelled from the spec: `rbuf::get_capacity`, the capacity set by
`set_capacity` (0 before first use). -/
def rbuf.get_capacity (r : rbuf) : Nat := r.capacity

/-- Modelled from the spec: `rbuf::set_capacity`, spec 3: "Capacity is set once
before first use". -/
def rbuf.set_capacity (r : rbuf) (cap : Nat) : rbuf := { r with capacity := cap }

/-- Modelled from the spec: `rbuf::reset`, spec 4.1: "discards all buffered
content and zeroes both cursors". -/
def rbuf.reset (r : rbuf) : rbuf := { r with data := [] }

/-! ## Types declared in `output.h` -/

/-- Modelled from the spec: `enum output_mimetype` (declared in `output.h`),
the four values `http_response` switches on. -/
inductive output_mimetype where
  | MIMETYPE_NONE
  | MIMETYPE_OCTET_STREAM
  | MIMETYPE_TEXT_PLAIN
  | MIMETYPE_TEXT_HTML
deriving DecidableEq, Repr

/-- Modelled from the spec: the transport kinds `OUTPUT_STREAM_*` (declared in
`output.h`), the seven values `output_stream::stream` switches on. -/
inductive output_stream_method where
  | OUTPUT_STREAM_UDP
  | OUTPUT_STREAM_TCP
  | OUTPUT_STREAM_FILE
  | OUTPUT_STREAM_HTTP
  | OUTPUT_STREAM_FUNC
  | OUTPUT_STREAM_INTF
  | OUTPUT_STREAM_STDOUT
deriving DecidableEq, Repr

open output_mimetype output_stream_method

/-- The modulus of the `unsigned long` byte counters `count_in` and
`count_out` (printed with `%lu`), 64 bits wide. -/
def ULONG_MOD : Nat := 2 ^ 64

/-- The modulus of `uint16_t`. -/
def UINT16_MOD : Nat := 2 ^ 16

/-- The members of `class output_stream`, as initialised and used in
`output.cpp`. `pids` is the `map_pidtype` subscription map (PID to metadata),
`ip_addr` the port and dotted address of the `sockaddr_in`. -/
structure output_stream where
  f_kill_thread : Bool
  f_streaming : Bool
  sock : Int
  mimetype : output_mimetype
  ringbuffer : rbuf
  stream_method : output_stream_method
  count_in : Nat
  count_out : Nat
  m_iface : Nat
  stream_cb : Nat
  stream_cb_priv : Nat
  have_pat : Bool
  pat_pkt : List Nat
  name : List Char
  name_index : Nat
  ip_addr : Nat × List Char
  pids : List (Nat × Nat)
deriving DecidableEq, Repr

/-- The constructor `output_stream::output_stream()`. -/
def output_stream.init : output_stream :=
  { f_kill_thread := false
    f_streaming := false
    sock := -1
    mimetype := MIMETYPE_OCTET_STREAM
    ringbuffer := { capacity := 0, data := [] }
    stream_method := OUTPUT_STREAM_UDP
    count_in := 0
    count_out := 0
    m_iface := 0
    stream_cb := 0
    stream_cb_priv := 0
    have_pat := false
    pat_pkt := []
    name := []
    name_index := 0
    ip_addr := (0, [])
    pids := [] }

/-! ## PID filter and `output_stream::push` -/

/-- The 13-bit PID read in `push`: `((p_data[1] & 0x1f) << 8) | p_data[2]`. -/
def pkt_pid (p_data : List Nat) : Nat :=
  ((p_data.getD 1 0 &&& 0x1f) <<< 8) ||| p_data.getD 2 0

/-- Modelled from the spec: `output_stream::want_pkt` (defined in `output.h`).
Spec 4.3 gives the whole predicate of `push` as "the packet's PID equals 0 or is
present in the subscriber's PID set"; `push` tests PID 0 itself, so `want_pkt`
is the membership of the PID in `pids`. -/
def output_stream.want_pkt (s : output_stream) (p_data : List Nat) : Bool :=
  (s.pids.map Prod.fst).contains (pkt_pid p_data)

/-- The fallback loop of `push`,
`while (size >= 188) if (ringbuffer.write(p_data, 188)) { p_data += 188;
size -= 188; count_in += 188; } else return false;`
run for the `size / 188` whole units that `size` holds. -/
def output_stream.push_units (s : output_stream) (p_data : List Nat) :
    Nat → Bool × output_stream
  | 0 => (true, s)
  | n + 1 =>
    match s.ringbuffer.write (p_data.take 188) with
    | (true, rb) =>
      output_stream.push_units
        { s with ringbuffer := rb, count_in := (s.count_in + 188) % ULONG_MOD }
        (p_data.drop 188) n
    | (false, _) => (false, s)

/-- The block `/* push data into output_stream buffer */` of `push`: one write
of the whole range, and on failure the per-unit loop. -/
def output_stream.push_write (s : output_stream) (p_data : List Nat) (size : Nat) :
    Bool × output_stream :=
  match s.ringbuffer.write (p_data.take size) with
  | (true, rb) =>
    (true, { s with ringbuffer := rb, count_in := (s.count_in + size) % ULONG_MOD })
  | (false, _) => s.push_units p_data (size / 188)

/-- The function `output_stream::push(uint8_t* p_data, int size)`. The build
flag `TUNER_RESOURCE_SHARING` (not defined in `output.cpp`) selects the
`#if` branch when true and the `#else` branch when false. -/
def output_stream.push (TUNER_RESOURCE_SHARING : Bool) (s : output_stream)
    (p_data : List Nat) (size : Nat) : Bool × output_stream :=
  if TUNER_RESOURCE_SHARING then
    if pkt_pid p_data = 0 ∧ size = 188 then
      let s1 : output_stream :=
        if s.have_pat then s else { s with pat_pkt := p_data.take 188, have_pat := true }
      match s1.ringbuffer.write (s1.pat_pkt.take 188) with
      | (true, rb) =>
        (true, { s1 with ringbuffer := rb, count_in := (s1.count_in + 188) % ULONG_MOD })
      | (false, _) => (true, s1)
    else if s.want_pkt p_data then
      s.push_write p_data size
    else
      (true, s)
  else
    if pkt_pid p_data = 0 ∨ s.want_pkt p_data = true then
      s.push_write p_data size
    else
      (true, s)

/-- One call of `push` per packet, each of 188 bytes, in order; the result
holds the conjunction of the return values. -/
def output_stream.push_each (TUNER_RESOURCE_SHARING : Bool) :
    output_stream → List (List Nat) → Bool × output_stream
  | s, [] => (true, s)
  | s, p :: ps =>
    let r := s.push TUNER_RESOURCE_SHARING p 188
    let r2 := output_stream.push_each TUNER_RESOURCE_SHARING r.2 ps
    (r.1 && r2.1, r2.2)

/-- The claimed filter on one packet: its PID is 0 or is in the subscription
set. -/
def pid_wanted (pids : List (Nat × Nat)) (p : List Nat) : Bool :=
  decide (pkt_pid p = 0) || (pids.map Prod.fst).contains (pkt_pid p)

/-- The packets the claimed filter keeps, in their original order. -/
def wanted_packets (pids : List (Nat × Nat)) (pkts : List (List Nat)) : List (List Nat) :=
  pkts.filter (pid_wanted pids)

/-- A 188-byte transport packet with sync byte 0x47, the given PID and a
payload of one repeated byte. -/
def mk_packet (pid fill : Nat) : List Nat :=
  [0x47, (pid >>> 8) &&& 0x1f, pid &&& 0xff] ++ List.replicate 185 fill

/-- A stream subscribed to PID 100 only, its ring buffer empty with the given
capacity. -/
def stream_sub100 (cap : Nat) : output_stream :=
  { output_stream.init with
    ringbuffer := { capacity := cap, data := [] }
    pids := [(100, 0)] }

/-! ## HTTP framing -/

def HTTP_200_OK : String := "HTTP/1.1 200 OK"
def CONTENT_TYPE : String := "Content-type: "
def TEXT_HTML : String := "text/html"
def TEXT_PLAIN : String := "text/plain"
def OCTET_STREAM : String := "application/octet-stream"
def ENC_CHUNKED : String := "Transfer-Encoding: chunked"
def CRLF : String := "\r\n"

/-- The function `__http_response(const char *mimetype)`; `none` is the `NULL`
pointer. -/
def __http_response (mimetype : Option String) : String :=
  let str := ""
  let str := str ++ (HTTP_200_OK ++ CRLF)
  let str :=
    match mimetype with
    | some m => ((str ++ CONTENT_TYPE) ++ m) ++ (CRLF ++ ENC_CHUNKED ++ CRLF)
    | none => str
  str ++ CRLF

/-- The function `http_response(enum output_mimetype mimetype)`. -/
def http_response (mimetype : output_mimetype) : String :=
  let str : Option String :=
    match mimetype with
    | MIMETYPE_OCTET_STREAM => some OCTET_STREAM
    | MIMETYPE_TEXT_PLAIN => some TEXT_PLAIN
    | MIMETYPE_TEXT_HTML => some TEXT_HTML
    | MIMETYPE_NONE => none
  __http_response str

/-- The bytes of a C string. -/
def str_bytes (s : String) : List Nat := s.toList.map Char.toNat

/-- The far side of the sockets. `wire` is every byte handed to `sendto` so
far, in order. `script` holds what the next calls of `socket_send` on a valid
descriptor come back with: a negative value when `select` or `sendto` fails, or
the number of bytes `sendto` took; once the script is used up every send
takes the whole buffer. -/
structure net where
  script : List Int
  wire : List Nat
deriving DecidableEq, Repr

/-- The function `socket_send(sockfd, buf, len, flags, dest_addr, addrlen)`.
A negative descriptor is returned as is. Otherwise the `select` loop is taken
to end, and the call returns what the script says, the wire receiving the bytes
that `sendto` took. -/
def socket_send (sockfd : Int) (buf : List Nat) (len : Nat) (n : net) : Int × net :=
  if sockfd < 0 then (sockfd, n)
  else
    match n.script with
    | [] => ((len : Int), { n with wire := n.wire ++ buf.take len })
    | r :: rest =>
      if r < 0 then (r, { n with script := rest })
      else (r, { script := rest, wire := n.wire ++ buf.take (min r.toNat len) })

/-- The function `stream_crlf(int socket)`. -/
def stream_crlf (socket : Int) (n : net) : Int × net :=
  socket_send socket (str_bytes CRLF) 2 n

/-- The modulus of `unsigned int`. -/
def UINT_MOD : Nat := 2 ^ 32

/-- The text `sprintf(sz, "%x\r\n", (unsigned int)length)` produces: `length`
as an `unsigned int` in lower-case hexadecimal, then CR LF. -/
def sprintf_x_crlf (length : Nat) : List Char :=
  Nat.toDigits 16 (length % UINT_MOD) ++ ['\r', '\n']

/-- The function `stream_http_chunk(socket, buf, length, send_zero_length)`. -/
def stream_http_chunk (socket : Int) (buf : List Nat) (length : Nat)
    (send_zero_length : Bool) (n : net) : Int × net :=
  if socket < 0 then (socket, n)
  else if length ≠ 0 ∨ send_zero_length = true then
    let sz := sprintf_x_crlf length
    let r1 := socket_send socket (sz.map Char.toNat) sz.length n
    if r1.1 < 0 then r1
    else if length ≠ 0 then
      let r2 := socket_send socket buf length r1.2
      if r2.1 < 0 then r2
      else
        let r3 := stream_crlf socket r2.2
        if r3.1 < 0 then r3 else (0, r3.2)
    else (0, r1.2)
  else (0, n)

/-- A far side on which every send takes the whole buffer, nothing sent yet. -/
def net_ok : net := { script := [], wire := [] }

/-- The response as the claim C7 words it: status line, the content-type header
unless omitted, the chunked-transfer header for every mimetype value, blank
line. -/
def http_response_claimed (mimetype : output_mimetype) : String :=
  "HTTP/1.1 200 OK\r\n" ++
  (match mimetype with
   | MIMETYPE_OCTET_STREAM => "Content-type: application/octet-stream\r\n"
   | MIMETYPE_TEXT_PLAIN => "Content-type: text/plain\r\n"
   | MIMETYPE_TEXT_HTML => "Content-type: text/html\r\n"
   | MIMETYPE_NONE => "") ++
  "Transfer-Encoding: chunked\r\n" ++ "\r\n"

/-! ## `std::map` -/

/-- Lookup in a `std::map` held as a list of pairs: `m.find(k)`. -/
def map_find {κ β : Type} [DecidableEq κ] (k : κ) : List (κ × β) → Option β
  | [] => none
  | (k1, v1) :: rest => if k1 = k then some v1 else map_find k rest

/-- Assignment `m[k] = v` in a `std::map` held as a list of pairs in ascending
key order: the value is replaced when the key is present and the pair is
inserted at its place in the order otherwise. -/
def map_set {κ β : Type} [LinearOrder κ] (k : κ) (v : β) : List (κ × β) → List (κ × β)
  | [] => [(k, v)]
  | (k1, v1) :: rest =>
    if k < k1 then (k, v) :: (k1, v1) :: rest
    else if k = k1 then (k, v) :: rest
    else (k1, v1) :: map_set k v rest

/-- The call `m.erase(k)`. -/
def map_erase {κ β : Type} [DecidableEq κ] (k : κ) (m : List (κ × β)) : List (κ × β) :=
  m.filter (fun e => decide (e.1 ≠ k))

/-- The keys of a map, in iteration order. -/
def map_keys {κ β : Type} (m : List (κ × β)) : List κ := m.map Prod.fst

/-! ## C strings -/

/-- Whether `strstr(hay, needle)` is not `NULL`: `needle` occurs in `hay`. -/
def strstr_found (hay needle : List Char) : Bool :=
  hay.tails.any (fun t => needle.isPrefixOf t)

/-- One call of `strtok_r` with a single delimiter character: `none` when the
call returns `NULL`, else the token and the rest of the string that the save
pointer is left at. -/
def strtok_r (delim : Char) (s : List Char) : Option (List Char × List Char) :=
  let s1 := s.dropWhile (fun c => c == delim)
  if s1 = [] then none
  else some (s1.takeWhile (fun c => c != delim), (s1.dropWhile (fun c => c != delim)).drop 1)

/-- All the tokens that repeated calls of `strtok_r` return, at most `fuel` of
them. -/
def strtok_all (delim : Char) : Nat → List Char → List (List Char)
  | 0, _ => []
  | fuel + 1, s =>
    match strtok_r delim s with
    | none => []
    | some (tok, save) => tok :: strtok_all delim fuel save

/-- The C predicate `isspace` in the C locale. -/
def isspace (c : Char) : Bool :=
  c == ' ' || c == '\t' || c == '\n' || c == '\x0b' || c == '\x0c' || c == '\r'

/-- The digits read by `atoi`, accumulated in base ten. -/
def atoi_digits (acc : Nat) : List Char → Nat
  | [] => acc
  | c :: cs => if c.isDigit then atoi_digits (acc * 10 + (c.toNat - 48)) cs else acc

/-- The C function `atoi` on a string whose value fits an `int`: leading white
space, an optional sign, then decimal digits. -/
def atoi (s : List Char) : Int :=
  match s.dropWhile isspace with
  | '-' :: cs => - (atoi_digits 0 cs : Int)
  | '+' :: cs => (atoi_digits 0 cs : Int)
  | cs => (atoi_digits 0 cs : Int)

/-- The call `strncpy(name, src, n)` into the empty `name`, read back as a C
string. -/
def strncpy (src : List Char) (n : Nat) : List Char := src.take n

/-! ## Target configuration: the `add` overloads of `output_stream` -/

/-- The function `output_stream::set_pids`: `pids[iter->first] = iter->second`
for every entry of `new_pids`; returns 0. -/
def output_stream.set_pids (s : output_stream) (new_pids : List (Nat × Nat)) :
    Int × output_stream :=
  (0, { s with pids := new_pids.foldl (fun m e => map_set e.1 e.2 m) s.pids })

/-- The overload `output_stream::add(void* priv, stream_callback callback,
map_pidtype &pids)`. `name_size` is `sizeof(name)`, declared in `output.h`. -/
def output_stream.add_func (name_size : Nat) (s : output_stream) (priv callback : Nat)
    (pids : List (Nat × Nat)) : Int × output_stream :=
  output_stream.set_pids
    { s with
      stream_cb := callback
      stream_cb_priv := priv
      ringbuffer := s.ringbuffer.reset
      stream_method := OUTPUT_STREAM_FUNC
      name := strncpy "FUNC".toList name_size } pids

/-- The overload `output_stream::add(output_stream_iface *iface, map_pidtype
&pids)`. -/
def output_stream.add_intf (name_size : Nat) (s : output_stream) (iface : Nat)
    (pids : List (Nat × Nat)) : Int × output_stream :=
  output_stream.set_pids
    { s with
      m_iface := iface
      ringbuffer := s.ringbuffer.reset
      stream_method := OUTPUT_STREAM_INTF
      name := strncpy "INTF".toList name_size } pids

/-- The overload `output_stream::add(int socket, unsigned int method,
map_pidtype &pids)`; the `fcntl` calls leave the members alone. -/
def output_stream.add_socket (name_size : Nat) (s : output_stream) (socket : Int)
    (method : output_stream_method) (pids : List (Nat × Nat)) : Int × output_stream :=
  output_stream.set_pids
    { s with
      sock := socket
      stream_method := method
      name := strncpy "SOCKET".toList name_size
      ringbuffer := s.ringbuffer.reset } pids

/-- The function `output_stream::add_stdout`. -/
def output_stream.add_stdout (name_size : Nat) (s : output_stream)
    (pids : List (Nat × Nat)) : Int × output_stream :=
  output_stream.set_pids
    { s with
      ringbuffer := s.ringbuffer.reset
      stream_method := OUTPUT_STREAM_STDOUT
      name := strncpy "STDOUT".toList name_size } pids

/-- What the parsing part of `output_stream::add(char* target, ...)` leaves in
its locals `b_tcp`, `b_udp`, `b_file`, `ip` and `port`. -/
structure target_spec where
  b_tcp : Bool
  b_udp : Bool
  b_file : Bool
  ip : List Char
  port : Nat
deriving DecidableEq, Repr

/-- The parsing part of `output_stream::add(char* target, ...)` for a target
that is not one of the stdout forms (lines `if (strstr(target, ":"))` to the
end of its `else`). The result is `none` where the code hands the `NULL` that
`strtok_r` returned to `strstr` or to `atoi`, which is undefined behaviour. -/
def parse_target (target : List Char) : Option target_spec :=
  if strstr_found target ":".toList then
    match strtok_r ':' target with
    | none => none
    | some (ip0, save0) =>
      let b_tcp := strstr_found ip0 "tcp".toList
      let b_udp := !b_tcp && strstr_found ip0 "udp".toList
      let b_file := !b_tcp && !b_udp && strstr_found ip0 "file".toList
      if b_tcp || b_udp || b_file then
        match strtok_r ':' save0 with
        | none => none
        | some (ip1, save1) =>
          let ip := if "//".toList.isPrefixOf ip1 then ip1.drop 2 else ip1
          if !b_file then
            match strtok_r ':' save1 with
            | none => none
            | some (p, _) =>
              some { b_tcp := b_tcp, b_udp := b_udp, b_file := b_file, ip := ip,
                     port := (atoi p % (UINT16_MOD : Int)).toNat }
          else
            some { b_tcp := b_tcp, b_udp := b_udp, b_file := b_file, ip := ip, port := 0 }
      else
        match strtok_r ':' save0 with
        | none => none
        | some (p, _) =>
          some { b_tcp := b_tcp, b_udp := b_udp, b_file := b_file, ip := ip0,
                 port := (atoi p % (UINT16_MOD : Int)).toNat }
  else
    some { b_tcp := false, b_udp := false, b_file := false, ip := target, port := 1234 }

/-- The results of the system calls that one call of
`output_stream::add(char* target, ...)` makes: the descriptor `open` returns in
`change_file`, the descriptor `socket` returns, the text `hostname_to_ip`
resolves the host to (`none` when it fails), whether `inet_aton` accepts the
address, and whether `connect` succeeds or is in progress. -/
structure sys where
  open_fd : Int
  socket_fd : Int
  resolved : Option (List Char)
  aton_ok : Bool
  connect_ok : Bool
deriving DecidableEq, Repr

/-- The function `output_stream::change_file` (the file name it builds is
only handed to `open`). -/
def output_stream.change_file (s : output_stream) (open_fd : Int) : Int × output_stream :=
  let s1 : output_stream := { s with sock := open_fd }
  if open_fd < 0 then (-1, s1)
  else (0, { s1 with name_index := s1.name_index + 1 })

/-- The overload `output_stream::add(char* target, map_pidtype &pids)`; `none`
where the parsing runs into undefined behaviour. -/
def output_stream.add (name_size : Nat) (s : output_stream) (target : List Char) (y : sys)
    (pids : List (Nat × Nat)) : Option (Int × output_stream) :=
  let s0 : output_stream := { s with name := target.take (name_size - 1) }
  if target = "-".toList ∨ target = "fd://0".toList ∨ target = "fd:/0".toList then
    some (s0.add_stdout name_size pids)
  else
    match parse_target target with
    | none => none
    | some t =>
      if t.b_file then
        let r := s0.change_file y.open_fd
        if r.1 < 0 then some (-1, r.2)
        else
          some (output_stream.set_pids
            { r.2 with
              name_index := 0
              ringbuffer := r.2.ringbuffer.reset
              stream_method := OUTPUT_STREAM_FILE } pids)
      else
        let s1 : output_stream := { s0 with sock := y.socket_fd }
        if y.socket_fd ≥ 0 then
          let ip := match y.resolved with
            | some r => r
            | none => t.ip
          if y.aton_ok = false then
            some (-1, { s1 with ip_addr := (t.port, []) })
          else
            let s2 : output_stream :=
              { s1 with ip_addr := (t.port, ip), ringbuffer := s1.ringbuffer.reset }
            if t.b_tcp then
              if y.connect_ok = false then some (-1, s2)
              else some (output_stream.set_pids { s2 with stream_method := OUTPUT_STREAM_TCP } pids)
            else
              some (output_stream.set_pids { s2 with stream_method := OUTPUT_STREAM_UDP } pids)
        else
          some (-1, s1)

/-! ## Lifecycle of one stream -/

/-- Modelled from the spec: `output_stream::stop_without_wait` (defined in
`output.h`), spec 4.2: it "only raises the termination flag". -/
def output_stream.stop_without_wait (s : output_stream) : output_stream :=
  { s with f_kill_thread := true }

/-- The function `output_stream::close_file`. -/
def output_stream.close_file (s : output_stream) : output_stream :=
  if s.sock ≥ 0 then { s with sock := -1 } else s

/-- The end of `output_stream_thread` once the loop is left: `f_streaming =
false;` and `close_file();`. -/
def output_stream.worker_exit (s : output_stream) : output_stream :=
  output_stream.close_file { s with f_streaming := false }

/-- The function `output_stream::stop`: the flag is raised, and the wait
`while (f_streaming)` ends when the worker has seen the flag and left its
loop. -/
def output_stream.stop (s : output_stream) : output_stream :=
  let s1 := s.stop_without_wait
  if s1.f_streaming then s1.worker_exit else s1

/-- The function `output_stream::check`: `f_streaming | (0 == count_in +
count_out)`; the diagnostics it prints leave the members alone. -/
def output_stream.check (s : output_stream) : Bool :=
  s.f_streaming || decide ((s.count_in + s.count_out) % ULONG_MOD = 0)

/-- Modelled from the spec: `output_stream::is_streaming` (defined in
`output.h`), the "streaming-active flag" of spec 3. -/
def output_stream.is_streaming (s : output_stream) : Bool := s.f_streaming

/-- Modelled from the spec: `output_stream::verify(void* priv, stream_callback
callback)` (defined in `output.h`), spec 4.4: an entry "already bound to the
same callback+context". -/
def output_stream.verify_func (s : output_stream) (priv callback : Nat) : Bool :=
  decide (priv = s.stream_cb_priv) && decide (callback = s.stream_cb)

/-- Modelled from the spec: `output_stream::verify(output_stream_iface *iface)`
(defined in `output.h`), spec 4.4: "same interface pointer". -/
def output_stream.verify_intf (s : output_stream) (iface : Nat) : Bool :=
  decide (iface = s.m_iface)

/-- Modelled from the spec: `output_stream::verify(int socket, unsigned int
method)` (defined in `output.h`), spec 4.4: "same (socket, method) pair". -/
def output_stream.verify_socket (s : output_stream) (socket : Int)
    (method : output_stream_method) : Bool :=
  decide (socket = s.sock) && decide (method = s.stream_method)

/-- Modelled from the spec: `output_stream::verify(char* target)` (defined in
`output.h`), spec 4.4: "same string target"; the target string of a stream is
kept in its member `name`, the only string `add` stores. -/
def output_stream.verify (s : output_stream) (target : List Char) : Bool :=
  decide (target = s.name)

/-! ## The multiplexer `output` -/

/-- The members of `class output`. Target ids are `int`; `num_targets` counts
upwards from 0 (its wrap-around is not modelled). `options` is the
`enum output_options` bit mask. -/
structure output where
  f_kill_thread : Bool
  f_streaming : Bool
  ringbuffer : rbuf
  num_targets : Nat
  options : Nat
  count_in : Nat
  count_out : Nat
  output_streams : List (Int × output_stream)
deriving DecidableEq, Repr

/-- The constructor `output::output()`. -/
def output.init : output :=
  { f_kill_thread := false
    f_streaming := false
    ringbuffer := { capacity := 0, data := [] }
    num_targets := 0
    options := 0
    count_in := 0
    count_out := 0
    output_streams := [] }

/-- The loop shared by the four `output::search` overloads: the id of the
first entry, in key order, that `verify` accepts, else -1. -/
def search_by (m : List (Int × output_stream)) (verify : output_stream → Bool) : Int :=
  match m.find? (fun e => verify e.2) with
  | some e => e.1
  | none => -1

/-- The overload `output::search(void* priv, stream_callback callback)`. -/
def output.search_func (o : output) (priv callback : Nat) : Int :=
  search_by o.output_streams (fun s => s.verify_func priv callback)

/-- The overload `output::search(output_stream_iface *iface)`. -/
def output.search_intf (o : output) (iface : Nat) : Int :=
  search_by o.output_streams (fun s => s.verify_intf iface)

/-- The overload `output::search(int socket, unsigned int method)`. -/
def output.search_socket (o : output) (socket : Int) (method : output_stream_method) : Int :=
  search_by o.output_streams (fun s => s.verify_socket socket method)

/-- The overload `output::search(char* target)`. -/
def output.search (o : output) (target : List Char) : Int :=
  search_by o.output_streams (fun s => s.verify target)

/-- The entry `output_streams[target_id]` as `operator[]` yields it: the stored
stream, or a freshly constructed one when the id is not in the map yet. -/
def output.stream_at (o : output) (target_id : Int) : output_stream :=
  (map_find target_id o.output_streams).getD output_stream.init

/-- The common tail of the `add` overloads of `output`, after
`output_streams[target_id].add(...)` has returned `r`: the entry holds the
stream as `add` left it, `num_targets` is incremented when `ret == 0`, and the
result is `(ret == 0) ? target_id : ret`. -/
def output.finish_add (o : output) (target_id : Int) (r : Int × output_stream) :
    Int × output :=
  let o1 : output := { o with output_streams := map_set target_id r.2 o.output_streams }
  if r.1 = 0 then (target_id, { o1 with num_targets := o1.num_targets + 1 })
  else (r.1, o1)

/-- The function `output::add_stdout`. -/
def output.add_stdout (name_size : Nat) (o : output) (pids : List (Nat × Nat)) :
    Int × output :=
  let target_id : Int := o.num_targets
  o.finish_add target_id ((o.stream_at target_id).add_stdout name_size pids)

/-- The overload `output::add(void* priv, stream_callback callback, map_pidtype
&pids)`. -/
def output.add_func (name_size : Nat) (o : output) (priv callback : Nat)
    (pids : List (Nat × Nat)) : Int × output :=
  if callback ≠ 0 ∧ priv ≠ 0 then
    let search_id := o.search_func priv callback
    if search_id ≥ 0 then (search_id, o)
    else
      let target_id : Int := o.num_targets
      o.finish_add target_id ((o.stream_at target_id).add_func name_size priv callback pids)
  else (-1, o)

/-- The overload `output::add(output_stream_iface *iface, map_pidtype &pids)`. -/
def output.add_intf (name_size : Nat) (o : output) (iface : Nat) (pids : List (Nat × Nat)) :
    Int × output :=
  if iface ≠ 0 then
    let search_id := o.search_intf iface
    if search_id ≥ 0 then (search_id, o)
    else
      let target_id : Int := o.num_targets
      o.finish_add target_id ((o.stream_at target_id).add_intf name_size iface pids)
  else (-1, o)

/-- The overload `output::add(int socket, unsigned int method, map_pidtype
&pids)`. -/
def output.add_socket (name_size : Nat) (o : output) (socket : Int)
    (method : output_stream_method) (pids : List (Nat × Nat)) : Int × output :=
  if socket ≥ 0 then
    let search_id := o.search_socket socket method
    if search_id ≥ 0 then (search_id, o)
    else
      let target_id : Int := o.num_targets
      o.finish_add target_id ((o.stream_at target_id).add_socket name_size socket method pids)
  else (-1, o)

/-- The function `output::__add(char* target, map_pidtype &pids)`; `none` where
`output_stream::add` runs into undefined behaviour. -/
def output.__add (name_size : Nat) (o : output) (target : List Char) (y : sys)
    (pids : List (Nat × Nat)) : Option (Int × output) :=
  let search_id := o.search target
  if search_id ≥ 0 then some (search_id, o)
  else
    let target_id : Int := o.num_targets
    match (o.stream_at target_id).add name_size target y pids with
    | none => none
    | some r => some (o.finish_add target_id r)

/-- The loop `while (item)` of `output::add(char* target, ...)` over the
comma-separated items still to come; `ys i` holds the system call results for
the `i`-th call of `__add`. -/
def output.add_items (name_size : Nat) (ys : Nat → sys) (pids : List (Nat × Nat)) :
    Nat → Int → output → List (List Char) → Option (Int × output)
  | _, ret, o, [] => some (ret, o)
  | i, _, o, item :: rest =>
    match o.__add name_size item (ys i) pids with
    | none => none
    | some r =>
      if r.1 < 0 then some r
      else output.add_items name_size ys pids (i + 1) r.1 r.2 rest

/-- The overload `output::add(char* target, map_pidtype &pids)`: the target is
cut at commas by `strtok_r` and every item goes to `__add`, until one returns
a negative value; a target without any item goes to `__add` whole. -/
def output.add (name_size : Nat) (o : output) (target : List Char) (ys : Nat → sys)
    (pids : List (Nat × Nat)) : Option (Int × output) :=
  match strtok_all ',' target.length target with
  | [] => o.__add name_size target (ys 0) pids
  | items => output.add_items name_size ys pids 0 (-1) o items

set_option linter.unusedVariables false in
/-- The function `output::reclaim_resources`: the first entry, in key order,
whose `check()` is false is erased and the function calls itself again; it
returns when no entry is erased. -/
def output.reclaim_resources (o : output) : output :=
  match h : o.output_streams.find? (fun e => !e.2.check) with
  | some e => output.reclaim_resources { o with output_streams := map_erase e.1 o.output_streams }
  | none => o
termination_by o.output_streams.length
decreasing_by
  have hmem : e ∈ o.output_streams := List.mem_of_find?_eq_some h
  show (map_erase e.1 o.output_streams).length < o.output_streams.length
  unfold map_erase
  apply List.length_filter_lt_length_iff_exists.mpr
  exact ⟨e, hmem, by simp⟩

/-- The function `output::check`: every stream is probed, and
`reclaim_resources` runs when one of them is not streaming; returns whether
any stream is. -/
def output.check (o : output) : Bool × output :=
  let ret := o.output_streams.any (fun e => e.2.check)
  let dead := (o.output_streams.filter (fun e => !e.2.check)).length
  if dead ≠ 0 then (ret, o.reclaim_resources) else (ret, o)

/-- Modelled from the spec: `output::stop_without_wait` (defined in
`output.h`), raising the termination flag of the fan-out worker. -/
def output.stop_without_wait (o : output) : output := { o with f_kill_thread := true }

/-- The function `output::stop()`: the flag of every stream is raised, then
every stream is stopped in turn; the final wait `while (f_streaming)` ends
when the fan-out worker, if any, has left its loop. -/
def output.stop (o : output) : output :=
  let o1 := o.stop_without_wait
  let m1 := o1.output_streams.map (fun e => (e.1, e.2.stop_without_wait))
  let m2 := m1.map (fun e => (e.1, e.2.stop))
  { o1 with output_streams := m2, f_streaming := false }

/-- The function `output::stop(int id)`. -/
def output.stop_id (o : output) (id : Int) : output :=
  match map_find id o.output_streams with
  | some s => { o with output_streams := map_set id s.stop o.output_streams }
  | none => o

/-- The function `output::push(uint8_t* p_data, int size)`. -/
def output.push (TUNER_RESOURCE_SHARING : Bool) (o : output) (p_data : List Nat)
    (size : Nat) : Bool × output :=
  let r : Bool × output :=
    if o.ringbuffer.get_capacity ≠ 0 then
      let w := o.ringbuffer.write (p_data.take size)
      (w.1, { o with ringbuffer := w.2 })
    else
      (true, { o with
        output_streams := o.output_streams.map (fun e =>
          if e.2.is_streaming then (e.1, (e.2.push TUNER_RESOURCE_SHARING p_data size).2)
          else e) })
  (r.1, { r.2 with count_in := (r.2.count_in + size) % ULONG_MOD })

/-- The overload `output::push(uint8_t* p_data, enum output_options opt)`:
`(((!options) || (!opt)) || (opt & options)) ? push(p_data, 188) : false`. -/
def output.push_opt (TUNER_RESOURCE_SHARING : Bool) (o : output) (p_data : List Nat)
    (opt : Nat) : Bool × output :=
  if (o.options = 0 ∨ opt = 0) ∨ (opt &&& o.options) ≠ 0 then
    o.push TUNER_RESOURCE_SHARING p_data 188
  else (false, o)

/-! ## Sequences of calls on the multiplexer -/

/-- One call on an `output`, with what the call is given. `add` is the string
form `__add` together with the results of the system calls it makes.
`stream_effect id f` stands for whatever `start`, `push` and the worker thread
of the stream `id` do to that stream between two calls. -/
inductive op where
  | add_stdout (pids : List (Nat × Nat))
  | add_func (priv callback : Nat) (pids : List (Nat × Nat))
  | add_intf (iface : Nat) (pids : List (Nat × Nat))
  | add_socket (socket : Int) (method : output_stream_method) (pids : List (Nat × Nat))
  | add (target : List Char) (y : sys) (pids : List (Nat × Nat))
  | check
  | reclaim_resources
  | stop
  | stop_id (id : Int)
  | stream_effect (id : Int) (f : output_stream → output_stream)

/-- A multiplexer together with the record of the ids that genuine additions
have returned so far, oldest first. -/
structure history where
  o : output
  assigned : List Int
deriving DecidableEq

/-- A fresh multiplexer: `output::output()` and an empty record. -/
def history.init : history := { o := output.init, assigned := [] }

/-- A stream as `check()` finds it alive or dead: streaming, or stopped after
188 bytes went through it. -/
def mk_stream (live : Bool) : output_stream :=
  { output_stream.init with f_streaming := live, count_in := 188, count_out := 188 }

/-- A multiplexer holding the targets 0 to 3: live, dead, dead, live. -/
def output_ldld : output :=
  { output.init with
    num_targets := 4
    output_streams :=
      [(0, mk_stream true), (1, mk_stream false), (2, mk_stream false), (3, mk_stream true)] }

/-- System call results when the host of the target cannot be resolved:
`socket` returns the descriptor 7, `hostname_to_ip` fails, and `inet_aton`
rejects the host name. -/
def sys_unresolved : sys :=
  { open_fd := -1, socket_fd := 7, resolved := none, aton_ok := false, connect_ok := false }

/-- System call results of a host on which every call succeeds: descriptor 7
from `open` and `socket`, the host resolving to 192.0.2.1. -/
def sys_ok : sys :=
  { open_fd := 7, socket_fd := 7, resolved := some "192.0.2.1".toList, aton_ok := true,
    connect_ok := true }

/-- A sequence of calls `push(p_data, size)` on one stream, in order; the
return values are dropped. -/
def output_stream.push_seq (TUNER_RESOURCE_SHARING : Bool) :
    output_stream → List (List Nat × Nat) → output_stream
  | s, [] => s
  | s, c :: rest =>
    output_stream.push_seq TUNER_RESOURCE_SHARING
      (s.push TUNER_RESOURCE_SHARING c.1 c.2).2 rest

/-- The number of whole 188-byte units that still fit in the ring buffer of a
stream. -/
def output_stream.units_free (s : output_stream) : Nat :=
  (s.ringbuffer.capacity - s.ringbuffer.data.length) / 188

/-- Three calls of `push` on a stream subscribed to PID 100: one call holding
the packets with PIDs 0, 100, 200, then the PID-200 packet alone, then the
PID-100 packet alone. -/
def calls_three : List (List Nat × Nat) :=
  [ (mk_packet 0 1 ++ mk_packet 100 2 ++ mk_packet 200 3, 564),
    (mk_packet 200 3, 188),
    (mk_packet 100 2, 188) ]

/-! ## Transmission: `output_stream::stream` and the worker loop -/

/-- The results of the calls `output_stream::stream` makes besides socket
sends: what `write` returns for a file sink, how many 188-byte items `fwrite`
reports for stdout, and what the callback and the interface sink return. -/
structure sink_results where
  write_ret : Int
  fwrite_items : Nat
  cb_ret : Int
  iface_ret : Int
deriving DecidableEq, Repr

/-- The function `write_stdout(p_data, size)`:
`188 * fwrite(p_data, 188, size / 188, stdout)`, where `fwrite` reports at most
the `size / 188` items it was given. -/
def write_stdout (size : Nat) (fwrite_items : Nat) : Nat :=
  188 * min fwrite_items (size / 188)

/-- The function `output_stream::stream(uint8_t* p_data, int size)` on a buffer
pointer that is not `NULL`: the return value, the stream (its termination flag
possibly raised by `stop_without_wait`) and the far side of the sockets. The
call of `stream_http_chunk` leaves `send_zero_length` to its default, which
plays no part for a `size` other than 0. -/
def output_stream.stream (s : output_stream) (p_data : List Nat) (size : Nat)
    (k : sink_results) (n : net) : Int × output_stream × net :=
  if size = 0 then (-1, s, n)
  else
    match s.stream_method with
    | OUTPUT_STREAM_UDP =>
      let r := socket_send s.sock p_data size n
      (r.1, s, r.2)
    | OUTPUT_STREAM_TCP =>
      let r := socket_send s.sock p_data size n
      (r.1, if r.1 < 0 then s.stop_without_wait else s, r.2)
    | OUTPUT_STREAM_FILE =>
      let ret := k.write_ret
      (ret, if ret < 0 then s.stop_without_wait else s, n)
    | OUTPUT_STREAM_HTTP =>
      let r := stream_http_chunk s.sock p_data size false n
      (r.1, if r.1 < 0 then s.stop_without_wait else s, r.2)
    | OUTPUT_STREAM_FUNC =>
      let ret : Int := if s.stream_cb ≠ 0 then k.cb_ret else -1
      (ret, if ret < 0 then s.stop_without_wait else s, n)
    | OUTPUT_STREAM_INTF =>
      let ret : Int := if s.m_iface ≠ 0 then k.iface_ret else -1
      (ret, if ret < 0 then s.stop_without_wait else s, n)
    | OUTPUT_STREAM_STDOUT =>
      let ret : Int := (write_stdout size k.fwrite_items : Nat)
      (ret, if ret ≠ (size : Int) then s.stop_without_wait else s, n)

/-- The macro `OUTPUT_STREAM_PACKET_SIZE`:
`(stream_method == OUTPUT_STREAM_UDP) ? 188*7 : 188*21`. -/
def output_stream.OUTPUT_STREAM_PACKET_SIZE (s : output_stream) : Nat :=
  if s.stream_method = OUTPUT_STREAM_UDP then 188 * 7 else 188 * 21

/-- Modelled from the spec: `rbuf::get_read_ptr`, spec 4.1: "returns a view of
currently buffered bytes without copying, bounded by both `max_len` and buffer
contiguity"; `contig` is the number of bytes between the read cursor and the
physical end of the store. The result is the view; the call returns its
length. -/
def rbuf.get_read_ptr (r : rbuf) (max_len contig : Nat) : List Nat :=
  r.data.take (min max_len contig)

/-- Modelled from the spec: `rbuf::put_read_ptr`, spec 4.1: "advances the read
cursor by exactly `len` bytes". -/
def rbuf.put_read_ptr (r : rbuf) (len : Nat) : rbuf :=
  { r with data := r.data.drop len }

/-- The outcome of one pass through the body of the worker loop. -/
structure iter_result where
  slept : Bool
  stream_ret : Int
  released : Nat
  s : output_stream
  n : net
deriving DecidableEq, Repr

/-- One pass through the body of `while (!f_kill_thread)` in
`output_stream_thread` (the `#else` branch of `PREVENT_RBUF_DEADLOCK`, which is
0): sleep when fewer than `OUTPUT_STREAM_PACKET_SIZE` bytes are buffered;
otherwise take a read view, round its length down to whole 188-byte units,
hand it to `stream`, release that many bytes and add them to `count_out`. -/
def output_stream.worker_iter (s : output_stream) (k : sink_results) (contig : Nat)
    (n : net) : iter_result :=
  if s.ringbuffer.get_size < s.OUTPUT_STREAM_PACKET_SIZE then
    { slept := true, stream_ret := 0, released := 0, s := s, n := n }
  else
    let data := s.ringbuffer.get_read_ptr s.OUTPUT_STREAM_PACKET_SIZE contig
    let buf_size := data.length / 188 * 188
    let r := s.stream data buf_size k n
    let s1 := r.2.1
    { slept := false
      stream_ret := r.1
      released := buf_size
      s := { s1 with
             ringbuffer := s1.ringbuffer.put_read_ptr buf_size
             count_out := (s1.count_out + buf_size) % ULONG_MOD }
      n := r.2.2 }

/-- The function `output_stream::start()`: the return value, the stream, and
whether `pthread_create` was called to launch a worker. `buf_size` is
`OUTPUT_STREAM_BUF_SIZE` (defined in `output.h`), `pthread_ret` what
`pthread_create` returns. -/
def output_stream.start (buf_size : Nat) (s : output_stream) (pthread_ret : Int) :
    Int × output_stream × Bool :=
  if s.f_streaming then (0, s, false)
  else if s.sock < 0 ∧
      (s.stream_method ≠ OUTPUT_STREAM_FUNC ∧
       s.stream_method ≠ OUTPUT_STREAM_INTF ∧
       s.stream_method ≠ OUTPUT_STREAM_STDOUT) then
    (s.sock, s, false)
  else
    (pthread_ret, { s with ringbuffer := s.ringbuffer.set_capacity buf_size }, true)

/-- The loop `while ((f_streaming) && (ringbuffer.get_capacity()))` of `drain`
and its `return (!f_streaming)`: `views` are the states of the stream as the
successive evaluations of the loop condition find it, `sleeps` counts the
`usleep` calls made so far. The result is `none` when the loop is still
waiting after the last view; otherwise the value returned, the number of
sleeps, and the stream as found when the loop was left. -/
def drain_wait : List output_stream → Nat → Option (Bool × Nat × output_stream)
  | [], _ => none
  | v :: rest, sleeps =>
    if v.f_streaming = true ∧ v.ringbuffer.get_capacity ≠ 0 then
      drain_wait rest (sleeps + 1)
    else some (!v.f_streaming, sleeps, v)

/-- The function `output_stream::drain()` called on the stream `s`, `later`
being the states the stream goes through while `drain` waits. -/
def output_stream.drain (s : output_stream) (later : List output_stream) :
    Option (Bool × Nat × output_stream) :=
  if s.f_streaming = false then some (false, 0, s)
  else drain_wait (s :: later) 0

/-- A fresh UDP stream on the socket 5 with a ring buffer of capacity 2000. -/
def stream_udp : output_stream :=
  { output_stream.init with sock := 5, ringbuffer := { capacity := 2000, data := [] } }

/-- Seven calls of `push`, each with one PID-0 packet. -/
def calls_seven : List (List Nat × Nat) := List.replicate 7 (mk_packet 0 1, 188)

/-- A file sink on the descriptor 3. -/
def stream_file : output_stream :=
  { output_stream.init with sock := 3, stream_method := OUTPUT_STREAM_FILE }

/-- A stdout sink. -/
def stream_stdout : output_stream :=
  { output_stream.init with stream_method := OUTPUT_STREAM_STDOUT }

/-- Results in which `write` takes 100 bytes and `fwrite` no item. -/
def sinks_short : sink_results :=
  { write_ret := 100, fwrite_items := 0, cb_ret := 0, iface_ret := 0 }

/-- A far side on which the next send fails. -/
def net_fail : net := { script := [-1], wire := [] }

/-- System call results for the items of a comma-separated target: the host of
the first item cannot be resolved, every call for the later items succeeds. -/
def sys_first_unresolved (i : Nat) : sys :=
  if i = 0 then sys_unresolved else sys_ok

/-- A stream that is streaming, its ring buffer of capacity 1000 empty. -/
def stream_streaming_empty : output_stream :=
  { output_stream.init with
    f_streaming := true
    sock := 5
    ringbuffer := { capacity := 1000, data := [] } }

/-- A stream that has stopped streaming with one packet left in its ring
buffer. -/
def stream_stopped_full : output_stream :=
  { output_stream.init with
    f_kill_thread := true
    ringbuffer := { capacity := 1000, data := mk_packet 0 1 } }

/-! ## Sequences of operations on one stream -/

/-- Conversion of an `unsigned int` value to `int`: value-preserving below
`2^31`, two's complement above (what GCC does, and C++20 prescribes). -/
def to_int (u : Nat) : Int :=
  if u % UINT_MOD < 2 ^ 31 then ((u % UINT_MOD : Nat) : Int)
  else ((u % UINT_MOD : Nat) : Int) - ((UINT_MOD : Nat) : Int)

/-- Conversion of an `int` value to `unsigned int`: the value modulo `2^32`. -/
def to_uint (z : Int) : Nat := (z % ((UINT_MOD : Nat) : Int)).toNat

/-- The result of an `int` addition or subtraction: the exact value when it is
representable, `none` (undefined behaviour) on signed overflow. -/
def int_ok (z : Int) : Option Int :=
  if -(2 ^ 31) ≤ z ∧ z < 2 ^ 31 then some z else none

/-- A call `multiscan` makes on one of its tuners, or a `sleep`, with the values
of its arguments. The tuner is the index into `tuners[]`; the arguments of
`set_device_ids` are in the order of the call, `(dvb_adap, fe_id, demux_id,
dvr_id)`. The diagnostic lines written to `stderr` are left out. -/
inductive scan_call where
  | set_device_ids (tuner dvb_adap fe_id demux_id dvr_id : Int)
  | start_scan (tuner : Int) (scan_flags : Nat) (scan_start scan_end : Int)
      (scan_epg : Bool)
  | sleep (seconds : Nat)
  | wait_for_scan_complete (tuner : Int)
  | xine_dump (tuner : Int)
deriving DecidableEq, Repr

/-- The values the loop variable takes in `for (int i = 0; i < n; i++)`. -/
def tuner_ids (n : Int) : List Int :=
  (List.range n.toNat).map (fun (i : Nat) => (i : Int))

/-- `int channels_to_scan = scan_max - scan_min + 1;`: computed in
`unsigned int`, then converted to `int`. -/
def channels_to_scan (scan_min scan_max : Nat) : Int :=
  to_int ((scan_max % UINT_MOD + (UINT_MOD - scan_min % UINT_MOD) + 1) % UINT_MOD)

/-- `scan_min + (k * (unsigned int)channels_to_scan/num_tuners)`, assigned to an
`int`; `k` is the `int` value `0 + i` or `1 + i`. The product and the sum are
taken in `unsigned int`, the `int` operands `k` and `num_tuners` being converted
to it. -/
def scan_bound (num_tuners : Int) (scan_min : Nat) (channels_to_scan : Int) (k : Int) :
    Int :=
  to_int ((scan_min % UINT_MOD +
    (to_uint k * to_uint channels_to_scan) % UINT_MOD / to_uint num_tuners) % UINT_MOD)

/-- `scan_start` of tuner `i` in `case 1` (speed) of `multiscan`. -/
def speed_scan_start (num_tuners : Int) (scan_min scan_max : Nat) (i : Int) : Int :=
  scan_bound num_tuners scan_min (channels_to_scan scan_min scan_max) (0 + i)

/-- `scan_end` of tuner `i` in `case 1` (speed) of `multiscan`. -/
def speed_scan_end (num_tuners : Int) (scan_min scan_max : Nat) (i : Int) : Int :=
  scan_bound num_tuners scan_min (channels_to_scan scan_min scan_max) (1 + i)

/-- Sequencing of loop bodies, any of which may be undefined. -/
def option_concat {α : Type} : List (Option (List α)) → Option (List α)
  | [] => some []
  | x :: rest => x.bind fun a => (option_concat rest).map fun b => a ++ b

/-- The nested loops of `case 3` (speed and redundancy), entered from `case 4`
and `default` too: pass `j` starts tuner `i` on the share of tuner `i + j`
(modulo `num_tuners`), after waiting for its previous scan when `j` is not the
first pass. -/
def multiscan_passes (num_tuners : Int) (scan_flags scan_min scan_max : Nat)
    (scan_epg : Bool) (partial_redundancy : Int) : Option (List scan_call) :=
  option_concat ((tuner_ids (num_tuners - partial_redundancy)).flatMap fun j =>
    (tuner_ids num_tuners).map fun i =>
      (int_ok (i + j)).map fun ij =>
        let k := if ij < num_tuners then ij else ij - num_tuners
        (if j ≠ 0 then [scan_call.wait_for_scan_complete i] else []) ++
        [scan_call.start_scan i scan_flags
           (scan_bound num_tuners scan_min (channels_to_scan scan_min scan_max) (0 + k))
           (scan_bound num_tuners scan_min (channels_to_scan scan_min scan_max) (1 + k))
           scan_epg,
         scan_call.sleep 1])

/-- The function `multiscan` of `dvbtee.cpp`: the calls it makes, in order.
`num_tuners` is an `int`, the scan parameters are `unsigned int`. With
`num_tuners <= 0` the array `tuners[num_tuners]` has no element and
`tuners[0]` is used at the end: undefined behaviour, `none`. -/
def multiscan (num_tuners : Int) (scan_method scan_flags scan_min scan_max : Nat)
    (scan_epg : Bool) : Option (List scan_call) :=
  if num_tuners ≤ 0 then none
  else
    let scans : Option (List scan_call) :=
      match scan_method with
      | 1 =>
        some ((tuner_ids num_tuners).flatMap fun i =>
          [scan_call.start_scan i scan_flags (speed_scan_start num_tuners scan_min scan_max i)
             (speed_scan_end num_tuners scan_min scan_max i) scan_epg,
           scan_call.sleep 1])
      | 2 =>
        some ((tuner_ids num_tuners).flatMap fun i =>
          [scan_call.start_scan i scan_flags (scan_min : Int) (scan_max : Int) scan_epg,
           scan_call.sleep 5])
      | 4 =>
        multiscan_passes num_tuners scan_flags scan_min scan_max scan_epg
          (if num_tuners > 2 then num_tuners - 2 else 0)
      | _ => multiscan_passes num_tuners scan_flags scan_min scan_max scan_epg 0
    scans.map fun sc =>
      (tuner_ids num_tuners).map (fun i => scan_call.set_device_ids i i 0 0 0) ++ sc ++
      (tuner_ids num_tuners).map (fun i => scan_call.wait_for_scan_complete i) ++
      [scan_call.xine_dump 0]

/-- The tuner and the range of a `start_scan` call. -/
def scan_call.range : scan_call → Option (Int × Int × Int)
  | .start_scan tuner _ scan_start scan_end _ => some (tuner, scan_start, scan_end)
  | _ => none

/-- The `start_scan` calls of a run, in order: tuner, first and last channel. -/
def started (calls : List scan_call) : List (Int × Int × Int) :=
  calls.filterMap scan_call.range

/-- The test by which the `output::search` overload of each `add` overload
recognises a stream as the target asked for; `add_stdout` and the calls that
are not additions make no search. -/
def op.verify : op → output_stream → Bool
  | op.add_func priv callback _, s => s.verify_func priv callback
  | op.add_intf iface _, s => s.verify_intf iface
  | op.add_socket socket method _, s => s.verify_socket socket method
  | op.add target _ _, s => s.verify target
  | _, _ => false

/-- System call results for a target string of several items of which the
second names a host that cannot be resolved. -/
def sys_second_unresolved (i : Nat) : sys :=
  if i = 1 then sys_unresolved else sys_ok

/-- A multiplexer holding one target, the UDP target "host" under the id 0, as
`add` leaves it on a fresh multiplexer when every system call succeeds. -/
def output_host : output :=
  { output.init with
    num_targets := 1
    output_streams :=
      [ (0, { output_stream.init with
              sock := 7
              stream_method := OUTPUT_STREAM_UDP
              name := "host".toList
              ip_addr := (1234, "192.0.2.1".toList) }) ] }

/-- The result of `__add` for a host that cannot be resolved, on the
multiplexer `output_host`. -/
def after_host_failure : Int × output :=
  (output_host.__add 32 "udp://nosuchhost.invalid:1234".toList sys_unresolved []).getD
    (0, output.init)

/-! ## Theorems -/

theorem rbuf_write_fits (r : rbuf) (bytes : List Nat)
    (h : r.data.length + bytes.length ≤ r.capacity) :
    r.write bytes = (true, { r with data := r.data ++ bytes }) := by
  simp [rbuf.write, h]

theorem rbuf_write_full (r : rbuf) (bytes : List Nat)
    (h : ¬ r.data.length + bytes.length ≤ r.capacity) :
    r.write bytes = (false, r) := by
  simp [rbuf.write, h]

theorem ulong_add_mod (c a b : Nat) :
    ((c + a) % ULONG_MOD + b) % ULONG_MOD = (c + (a + b)) % ULONG_MOD := by
  rw [Nat.add_mod, Nat.mod_mod, ← Nat.add_mod, Nat.add_assoc]

/-- What the per-unit loop does: it writes the first `k` whole units for some
`k ≤ n`, counts them, and returns true exactly when `k = n`. -/
theorem push_units_spec (n : Nat) (p_data : List Nat) (s : output_stream)
    (hlt : s.count_in < ULONG_MOD) :
    ∃ k, k ≤ n ∧
      (s.push_units p_data n).2.ringbuffer.data
        = s.ringbuffer.data ++ p_data.take (188 * k) ∧
      (s.push_units p_data n).2.count_in = (s.count_in + 188 * k) % ULONG_MOD ∧
      (s.push_units p_data n).2.ringbuffer.capacity = s.ringbuffer.capacity ∧
      (s.push_units p_data n).2.pids = s.pids ∧
      ((s.push_units p_data n).1 = true ↔ k = n) := by
  induction n generalizing p_data s with
  | zero =>
    refine ⟨0, le_refl _, ?_, ?_, rfl, rfl, ?_⟩
    · simp [output_stream.push_units]
    · simp [output_stream.push_units, Nat.mod_eq_of_lt hlt]
    · simp [output_stream.push_units]
  | succ n ih =>
    by_cases hfit : s.ringbuffer.data.length + (p_data.take 188).length ≤ s.ringbuffer.capacity
    · obtain ⟨k, hk, hd, hc, hcap, hp, hr⟩ := ih (p_data.drop 188)
        { s with
          ringbuffer := { s.ringbuffer with data := s.ringbuffer.data ++ p_data.take 188 }
          count_in := (s.count_in + 188) % ULONG_MOD }
        (Nat.mod_lt _ (by decide))
      refine ⟨k + 1, Nat.succ_le_succ hk, ?_, ?_, ?_, ?_, ?_⟩
      · simp only [output_stream.push_units, rbuf_write_fits _ _ hfit]
        rw [hd, Nat.mul_add, Nat.mul_one, Nat.add_comm (188 * k) 188, List.take_add]
        simp
      · simp only [output_stream.push_units, rbuf_write_fits _ _ hfit]
        rw [hc, ulong_add_mod, Nat.mul_add, Nat.mul_one, Nat.add_comm (188 * k) 188]
      · simp only [output_stream.push_units, rbuf_write_fits _ _ hfit]
        rw [hcap]
      · simp only [output_stream.push_units, rbuf_write_fits _ _ hfit]
        rw [hp]
      · simp only [output_stream.push_units, rbuf_write_fits _ _ hfit]
        rw [hr]
        omega
    · refine ⟨0, Nat.zero_le _, ?_, ?_, ?_, ?_, ?_⟩ <;>
        simp [output_stream.push_units, rbuf_write_full _ _ hfit, Nat.mod_eq_of_lt hlt]

/-- One call of `push` with a single 188-byte packet and room for it in the ring
buffer: the packet is appended when its PID is 0 or subscribed, and the stream
is left as it was otherwise. -/
theorem push_single (s : output_stream) (p : List Nat) (hp : p.length = 188)
    (hroom : s.ringbuffer.data.length + 188 ≤ s.ringbuffer.capacity) :
    s.push false p 188 =
      if pid_wanted s.pids p = true then
        (true, { s with
          ringbuffer := { s.ringbuffer with data := s.ringbuffer.data ++ p }
          count_in := (s.count_in + 188) % ULONG_MOD })
      else (true, s) := by
  have htake : p.take 188 = p := by rw [← hp]; exact List.take_length p
  have hfit : s.ringbuffer.data.length + p.length ≤ s.ringbuffer.capacity := by
    rw [hp]; exact hroom
  have hiff : (pkt_pid p = 0 ∨ s.want_pkt p = true) ↔ pid_wanted s.pids p = true := by
    simp [pid_wanted, output_stream.want_pkt]
  by_cases hw : pid_wanted s.pids p = true
  · simp only [output_stream.push, output_stream.push_write,
      htake, rbuf_write_fits _ _ hfit, if_pos (hiff.mpr hw), if_pos hw]
    simp
  · simp only [output_stream.push, if_neg (fun h => hw (hiff.mp h)), if_neg hw]
    simp

/-- C1 (amended): with one call of `push` per 188-byte packet and room in the
ring buffer for all of them, every call returns true and the bytes appended to
the ring buffer are exactly the packets whose PID is 0 or is in the
subscription set, in their original order. -/
theorem C1_push_per_packet_filters (pkts : List (List Nat)) (s : output_stream)
    (hlen : ∀ p ∈ pkts, p.length = 188)
    (hroom : s.ringbuffer.data.length + 188 * pkts.length ≤ s.ringbuffer.capacity) :
    (s.push_each false pkts).1 = true ∧
    (s.push_each false pkts).2.ringbuffer.data
      = s.ringbuffer.data ++ (wanted_packets s.pids pkts).flatten ∧
    (s.push_each false pkts).2.pids = s.pids := by
  induction pkts generalizing s with
  | nil => simp [output_stream.push_each, wanted_packets]
  | cons p ps ih =>
    have hp : p.length = 188 := hlen p (List.mem_cons_self _ _)
    have hps : ∀ q ∈ ps, q.length = 188 := fun q hq => hlen q (List.mem_cons_of_mem _ hq)
    have hlen2 : (p :: ps).length = ps.length + 1 := rfl
    have hroom1 : s.ringbuffer.data.length + 188 ≤ s.ringbuffer.capacity := by
      rw [hlen2] at hroom; omega
    have h1 := push_single s p hp hroom1
    by_cases hw : pid_wanted s.pids p = true
    · rw [if_pos hw] at h1
      have hroom2 : (s.ringbuffer.data ++ p).length + 188 * ps.length
          ≤ s.ringbuffer.capacity := by
        rw [List.length_append, hp]; rw [hlen2] at hroom; omega
      obtain ⟨a, b, c⟩ := ih
        { s with
          ringbuffer := { s.ringbuffer with data := s.ringbuffer.data ++ p }
          count_in := (s.count_in + 188) % ULONG_MOD } hps hroom2
      simp only [output_stream.push_each, h1]
      refine ⟨by simpa using a, ?_, c⟩
      rw [b, wanted_packets, wanted_packets, List.filter_cons_of_pos hw]
      simp
    · rw [if_neg hw] at h1
      have hroom2 : s.ringbuffer.data.length + 188 * ps.length ≤ s.ringbuffer.capacity := by
        rw [hlen2] at hroom; omega
      obtain ⟨a, b, c⟩ := ih s hps hroom2
      simp only [output_stream.push_each, h1]
      refine ⟨by simpa using a, ?_, c⟩
      rw [b, wanted_packets, wanted_packets, List.filter_cons_of_neg hw]

set_option maxRecDepth 100000 in
/-- C1 witness: subscription 100 and the packets with PIDs 0, 100, 200 pushed one
per call: the ring buffer holds the PID-0 and the PID-100 packet, in that
order, and not the PID-200 packet. -/
theorem C1_push_per_packet_filters_witness :
    ((stream_sub100 1000).push_each false
        [mk_packet 0 1, mk_packet 100 2, mk_packet 200 3]).2.ringbuffer.data
      = mk_packet 0 1 ++ mk_packet 100 2 :=
  (C1_push_per_packet_filters [mk_packet 0 1, mk_packet 100 2, mk_packet 200 3]
    (stream_sub100 1000) (by decide) (by decide)).2.1.trans (by decide)

set_option maxRecDepth 100000 in
/-- C1 as stated fails for a call holding several packets: with subscription
100, one call of `push` holding the packets with PIDs 0, 100, 200 writes all
564 bytes, the PID-200 packet included, which is not the filtered sequence. -/
theorem C1_counterexample :
    ((stream_sub100 1000).push false
        (mk_packet 0 1 ++ mk_packet 100 2 ++ mk_packet 200 3) 564).2.ringbuffer.data
      = mk_packet 0 1 ++ mk_packet 100 2 ++ mk_packet 200 3 ∧
    ((stream_sub100 1000).push false
        (mk_packet 0 1 ++ mk_packet 100 2 ++ mk_packet 200 3) 564).2.ringbuffer.data
      ≠ (wanted_packets (stream_sub100 1000).pids
          [mk_packet 0 1, mk_packet 100 2, mk_packet 200 3]).flatten := by
  decide

/-- C10 (amended): a call of `push` that passes the PID filter. When the whole
range fits in the ring buffer, all `size` bytes are written and counted, a
trailing partial unit included. When it does not fit, only whole 188-byte
units are written: the first `k` of them for some `k ≤ size / 188`, so the
last `size % 188` bytes are neither written nor counted in `count_in`, and the
call returns true exactly when all `size / 188` whole units were written. -/
theorem C10_push_trailing_partial_unit (s : output_stream) (p_data : List Nat) (size : Nat)
    (hpass : pkt_pid p_data = 0 ∨ s.want_pkt p_data = true)
    (hlt : s.count_in < ULONG_MOD) :
    (s.ringbuffer.data.length + (p_data.take size).length ≤ s.ringbuffer.capacity →
      (s.push false p_data size).1 = true ∧
      (s.push false p_data size).2.ringbuffer.data
        = s.ringbuffer.data ++ p_data.take size ∧
      (s.push false p_data size).2.count_in = (s.count_in + size) % ULONG_MOD) ∧
    (¬ s.ringbuffer.data.length + (p_data.take size).length ≤ s.ringbuffer.capacity →
      ∃ k, k ≤ size / 188 ∧
        (s.push false p_data size).2.ringbuffer.data
          = s.ringbuffer.data ++ p_data.take (188 * k) ∧
        (s.push false p_data size).2.count_in = (s.count_in + 188 * k) % ULONG_MOD ∧
        ((s.push false p_data size).1 = true ↔ k = size / 188)) := by
  constructor
  · intro hfit
    simp only [output_stream.push, output_stream.push_write, rbuf_write_fits _ _ hfit,
      if_pos hpass]
    simp
  · intro hfull
    obtain ⟨k, hk, hd, hc, _, _, hr⟩ := push_units_spec (size / 188) p_data s hlt
    refine ⟨k, hk, ?_, ?_, ?_⟩
    · simpa only [output_stream.push, output_stream.push_write, rbuf_write_full _ _ hfull,
        if_pos hpass] using hd
    · simpa only [output_stream.push, output_stream.push_write, rbuf_write_full _ _ hfull,
        if_pos hpass] using hc
    · simpa only [output_stream.push, output_stream.push_write, rbuf_write_full _ _ hfull,
        if_pos hpass] using hr

set_option maxRecDepth 100000 in
/-- C10 witness: 200 bytes starting with a PID-0 packet pushed into an empty
ring buffer of capacity 190: the range does not fit, and one whole unit is
written. -/
theorem C10_push_trailing_partial_unit_witness :
    (¬ (stream_sub100 190).ringbuffer.data.length
          + ((mk_packet 0 1 ++ List.replicate 12 9).take 200).length
        ≤ (stream_sub100 190).ringbuffer.capacity) ∧
    ∃ k, k ≤ 200 / 188 ∧
      ((stream_sub100 190).push false (mk_packet 0 1 ++ List.replicate 12 9) 200).2.ringbuffer.data
        = (stream_sub100 190).ringbuffer.data
            ++ (mk_packet 0 1 ++ List.replicate 12 9).take (188 * k) ∧
      ((stream_sub100 190).push false (mk_packet 0 1 ++ List.replicate 12 9) 200).2.count_in
        = ((stream_sub100 190).count_in + 188 * k) % ULONG_MOD ∧
      (((stream_sub100 190).push false (mk_packet 0 1 ++ List.replicate 12 9) 200).1 = true
        ↔ k = 200 / 188) :=
  ⟨by decide,
   (C10_push_trailing_partial_unit (stream_sub100 190)
      (mk_packet 0 1 ++ List.replicate 12 9) 200 (by decide) (by decide)).2 (by decide)⟩

set_option maxRecDepth 100000 in
/-- C10 as stated fails when the whole range fits: 200 bytes (one PID-0 packet
and 12 more bytes) pushed into an empty ring buffer of capacity 1000 are all
written and all counted, the 12 trailing bytes included. -/
theorem C10_counterexample :
    200 % 188 = 12 ∧
    ((stream_sub100 1000).push false (mk_packet 0 1 ++ List.replicate 12 9) 200).2.ringbuffer.data
      = mk_packet 0 1 ++ List.replicate 12 9 ∧
    ((stream_sub100 1000).push false (mk_packet 0 1 ++ List.replicate 12 9) 200).2.count_in
      = 200 ∧
    ¬ ((stream_sub100 1000).push false
        (mk_packet 0 1 ++ List.replicate 12 9) 200).2.ringbuffer.data.length
      ≤ 188 * (200 / 188) := by
  decide

/-- C6 (amended): for a valid socket, a non-empty payload of `n` bytes with
`n < 2^20` (so that the length line fits the 8-byte buffer `sz`) and sends that
all take the whole buffer, `stream_http_chunk` puts on the wire exactly the
length `n` in lower-case hexadecimal, CR LF, the payload, CR LF, and returns
0. -/
theorem C6_http_chunk_framing (socket : Int) (buf : List Nat) (szl : Bool) (n : net)
    (hsock : 0 ≤ socket) (hne : buf ≠ []) (hlen : buf.length < 2 ^ 20)
    (hok : n.script = []) :
    stream_http_chunk socket buf buf.length szl n
      = (0, { n with
          wire := n.wire ++ ((Nat.toDigits 16 buf.length ++ ['\r', '\n']).map Char.toNat
                    ++ buf ++ [13, 10]) }) := by
  have hs : ¬ socket < 0 := not_lt.mpr hsock
  have hl : buf.length ≠ 0 := fun h => hne (List.length_eq_zero.mp h)
  have hmod : buf.length % UINT_MOD = buf.length :=
    Nat.mod_eq_of_lt (lt_trans hlen (by decide))
  have hcr : str_bytes CRLF = [13, 10] := by decide
  have h1 : ¬ (((Nat.toDigits 16 buf.length).length : Int) + 2 < 0) := by omega
  have h2 : ¬ ((buf.length : Int) < 0) := by omega
  have h3 : List.take ((Nat.toDigits 16 buf.length).length + 2)
      (List.map Char.toNat (Nat.toDigits 16 buf.length) ++ [13, 10])
      = List.map Char.toNat (Nat.toDigits 16 buf.length) ++ [13, 10] :=
    List.take_of_length_le (by simp)
  simp only [stream_http_chunk, stream_crlf, socket_send, sprintf_x_crlf, hs, hl, hok, hmod,
    hcr, if_false, ne_eq, not_false_eq_true, true_or, if_true]
  simp [h1, h2, h3]

set_option maxRecDepth 100000 in
/-- C6 witness: the 188-byte chunk is framed as the four bytes of "bc", CR, LF,
then the payload, then CR LF. -/
theorem C6_http_chunk_framing_witness :
    stream_http_chunk 5 (mk_packet 0 1) 188 false net_ok
      = (0, { script := [],
              wire := str_bytes "bc\r\n" ++ mk_packet 0 1 ++ str_bytes "\r\n" }) :=
  (C6_http_chunk_framing 5 (mk_packet 0 1) false net_ok (by decide) (by decide) (by decide)
    rfl).trans (by decide)

set_option maxRecDepth 100000 in
/-- C6 as stated fails on the case of the length digits: for a 188-byte payload
the chunk starts with "bc", not with "BC". -/
theorem C6_counterexample :
    (stream_http_chunk 5 (mk_packet 0 1) 188 false net_ok).2.wire
      = str_bytes "bc\r\n" ++ mk_packet 0 1 ++ str_bytes "\r\n" ∧
    (stream_http_chunk 5 (mk_packet 0 1) 188 false net_ok).2.wire
      ≠ str_bytes "BC\r\n" ++ mk_packet 0 1 ++ str_bytes "\r\n" := by
  decide

/-- C7 (amended): `http_response` returns the status line, then the
content-type header and the chunked-transfer header together for octet-stream,
text-plain and text-html, then a blank line; for the mimetype value none it
returns the status line and the blank line only, without either header. -/
theorem C7_http_response (m : output_mimetype) :
    http_response m =
      match m with
      | MIMETYPE_OCTET_STREAM =>
        "HTTP/1.1 200 OK\r\nContent-type: application/octet-stream\r\n"
          ++ "Transfer-Encoding: chunked\r\n\r\n"
      | MIMETYPE_TEXT_PLAIN =>
        "HTTP/1.1 200 OK\r\nContent-type: text/plain\r\nTransfer-Encoding: chunked\r\n\r\n"
      | MIMETYPE_TEXT_HTML =>
        "HTTP/1.1 200 OK\r\nContent-type: text/html\r\nTransfer-Encoding: chunked\r\n\r\n"
      | MIMETYPE_NONE => "HTTP/1.1 200 OK\r\n\r\n" := by
  cases m <;> decide

/-- C7 as stated fails for the mimetype value none: the response is the status
line and the blank line, without the chunked-transfer header. -/
theorem C7_counterexample :
    http_response MIMETYPE_NONE = "HTTP/1.1 200 OK\r\n\r\n" ∧
    http_response MIMETYPE_NONE ≠ http_response_claimed MIMETYPE_NONE := by
  decide

/-! ### The multiplexer: `reclaim_resources` -/

theorem map_keys_nodup_inj {β : Type} (m : List (Int × β))
    (hnd : (map_keys m).Nodup) (x y : Int × β) (hx : x ∈ m) (hy : y ∈ m)
    (hxy : x.1 = y.1) : x = y :=
  List.inj_on_of_nodup_map hnd hx hy hxy

theorem map_erase_sublist {β : Type} (k : Int) (m : List (Int × β)) :
    (map_erase k m).Sublist m :=
  List.filter_sublist m

theorem map_keys_erase_sublist {β : Type} (k : Int) (m : List (Int × β)) :
    (map_keys (map_erase k m)).Sublist (map_keys m) :=
  (map_erase_sublist k m).map Prod.fst

/-- Erasing the first dead entry of a map with distinct keys does not change
which entries pass `check()`. -/
theorem filter_check_erase (m : List (Int × output_stream)) (e : Int × output_stream)
    (hnd : (map_keys m).Nodup)
    (hfind : m.find? (fun e => !e.2.check) = some e) :
    (map_erase e.1 m).filter (fun x => x.2.check) = m.filter (fun x => x.2.check) := by
  have hmem : e ∈ m := List.mem_of_find?_eq_some hfind
  have hdead := List.find?_some hfind
  unfold map_erase
  rw [List.filter_filter]
  apply List.filter_congr
  intro x hx
  by_cases hk : x.1 = e.1
  · have hxe : x = e := map_keys_nodup_inj m hnd x e hx hmem hk
    subst hxe
    simp at hdead
    simp [hdead]
  · simp [hk]

/-- What `reclaim_resources` computes on a map with distinct keys: the entries
that pass `check()`, everything else untouched. -/
theorem reclaim_resources_eq_filter (n : Nat) (o : output)
    (hlen : o.output_streams.length = n)
    (hnd : (map_keys o.output_streams).Nodup) :
    o.reclaim_resources
      = { o with output_streams := o.output_streams.filter (fun e => e.2.check) } := by
  induction n using Nat.strong_induction_on generalizing o with
  | _ n ih =>
    rw [output.reclaim_resources]
    split
    · rename_i e hfind
      have hmem : e ∈ o.output_streams := List.mem_of_find?_eq_some hfind
      have hlt : (map_erase e.1 o.output_streams).length < n := by
        rw [← hlen]
        unfold map_erase
        apply List.length_filter_lt_length_iff_exists.mpr
        exact ⟨e, hmem, by simp⟩
      have hnd2 : (map_keys (map_erase e.1 o.output_streams)).Nodup :=
        (map_keys_erase_sublist e.1 o.output_streams).nodup hnd
      rw [ih _ hlt { o with output_streams := map_erase e.1 o.output_streams } rfl hnd2]
      simp only [filter_check_erase o.output_streams e hnd hfind]
    · rename_i hfind
      have hall : ∀ x ∈ o.output_streams, x.2.check = true := by
        intro x hx
        have := List.find?_eq_none.mp hfind x hx
        simpa using this
      have hf : o.output_streams.filter (fun e => e.2.check) = o.output_streams :=
        List.filter_eq_self.mpr hall
      rw [hf]

/-- C4: on a multiplexer whose target ids are distinct (as the keys of a
`std::map` are), `reclaim_resources` returns, and when it has returned
`output_streams` holds exactly the targets for which `check()` was true on
entry, under their ids and in their order, every target whose `check()` was
false being removed; nothing else in the multiplexer changes. -/
theorem C4_reclaim_resources_keeps_live (o : output)
    (hnd : (map_keys o.output_streams).Nodup) :
    o.reclaim_resources
      = { o with output_streams := o.output_streams.filter (fun e => e.2.check) } ∧
    (∀ e ∈ o.reclaim_resources.output_streams, e.2.check = true) ∧
    (∀ e ∈ o.output_streams, e.2.check = true → e ∈ o.reclaim_resources.output_streams) ∧
    (∀ e ∈ o.output_streams, e.2.check = false → e ∉ o.reclaim_resources.output_streams) := by
  have h := reclaim_resources_eq_filter _ o rfl hnd
  refine ⟨h, ?_, ?_, ?_⟩
  · intro e he
    rw [h] at he
    exact (List.mem_filter.mp he).2
  · intro e he hc
    rw [h]
    exact List.mem_filter.mpr ⟨he, hc⟩
  · intro e _ hc he2
    rw [h] at he2
    have := (List.mem_filter.mp he2).2
    rw [hc] at this
    exact Bool.false_ne_true this

/-- C4 witness: for the targets live, dead, dead, live under the ids 0 to 3,
exactly the two live targets 0 and 3 remain. -/
theorem C4_reclaim_resources_keeps_live_witness :
    output_ldld.reclaim_resources.output_streams
      = [(0, mk_stream true), (3, mk_stream true)] :=
  (congrArg output.output_streams
    (C4_reclaim_resources_keeps_live output_ldld (by decide)).1).trans (by decide)

/-! ### The multiplexer: `push` with an option mask -/

theorem ulong_add_188_ne (c : Nat) : (c + 188) % ULONG_MOD ≠ c := by
  unfold ULONG_MOD
  omega

theorem output_push_count_in (trs : Bool) (o : output) (p_data : List Nat) (size : Nat) :
    (o.push trs p_data size).2.count_in = (o.count_in + size) % ULONG_MOD := by
  unfold output.push
  by_cases hcap : o.ringbuffer.get_capacity ≠ 0
  · simp only [if_pos hcap]
  · simp only [if_neg hcap]

/-- C8: `output::push(packet, opt)` is `output::push(packet, 188)` exactly when
`options == 0` or `opt == 0` or `(opt & options) != 0`; otherwise it returns
false and leaves the multiplexer, `count_in` and every target included, as it
was. -/
theorem C8_push_opt_gate (trs : Bool) (o : output) (p_data : List Nat) (opt : Nat) :
    (o.push_opt trs p_data opt = o.push trs p_data 188
      ↔ (o.options = 0 ∨ opt = 0 ∨ (opt &&& o.options) ≠ 0)) ∧
    (¬ (o.options = 0 ∨ opt = 0 ∨ (opt &&& o.options) ≠ 0)
      → o.push_opt trs p_data opt = (false, o)) := by
  by_cases hc : (o.options = 0 ∨ opt = 0) ∨ (opt &&& o.options) ≠ 0
  · have hc2 : o.options = 0 ∨ opt = 0 ∨ (opt &&& o.options) ≠ 0 := by
      rcases hc with (h | h) | h
      · exact Or.inl h
      · exact Or.inr (Or.inl h)
      · exact Or.inr (Or.inr h)
    refine ⟨⟨fun _ => hc2, fun _ => ?_⟩, fun hn => absurd hc2 hn⟩
    simp only [output.push_opt, if_pos hc]
  · have hc2 : ¬ (o.options = 0 ∨ opt = 0 ∨ (opt &&& o.options) ≠ 0) := by
      intro h
      apply hc
      rcases h with h | h | h
      · exact Or.inl (Or.inl h)
      · exact Or.inl (Or.inr h)
      · exact Or.inr h
    have hpo : o.push_opt trs p_data opt = (false, o) := by
      simp only [output.push_opt, if_neg hc]
    refine ⟨⟨fun heq => ?_, fun h => absurd h hc2⟩, fun _ => hpo⟩
    exfalso
    rw [hpo] at heq
    have hcnt := congrArg (fun r => r.2.count_in) heq
    simp only [output_push_count_in] at hcnt
    exact ulong_add_188_ne _ hcnt.symm

/-- C8 witness: with the option set 2, a packet declared with the mask 4 is not
delivered and a packet declared with the mask 6 is. -/
theorem C8_push_opt_gate_witness :
    ({ output.init with options := 2 } : output).push_opt false (mk_packet 0 1) 4
      = (false, { output.init with options := 2 }) ∧
    (({ output.init with options := 2 } : output).push_opt false (mk_packet 0 1) 6
      = ({ output.init with options := 2 } : output).push false (mk_packet 0 1) 188) :=
  ⟨(C8_push_opt_gate false { output.init with options := 2 } (mk_packet 0 1) 4).2 (by decide),
   (C8_push_opt_gate false { output.init with options := 2 } (mk_packet 0 1) 6).1.mpr
     (by decide)⟩

/-! ### The multiplexer: target ids -/

theorem mem_map_keys_set {β : Type} (k : Int) (v : β) (m : List (Int × β)) (x : Int) :
    x ∈ map_keys (map_set k v m) ↔ x = k ∨ x ∈ map_keys m := by
  induction m with
  | nil => simp [map_set, map_keys]
  | cons e rest ih =>
    obtain ⟨k1, v1⟩ := e
    unfold map_set
    by_cases h1 : k < k1
    · simp [h1, map_keys]
    · by_cases h2 : k = k1
      · subst h2
        simp [map_keys]
      · simp only [if_neg h1, if_neg h2]
        have ih2 : x ∈ List.map Prod.fst (map_set k v rest)
            ↔ x = k ∨ x ∈ List.map Prod.fst rest := ih
        simp only [map_keys, List.map_cons, List.mem_cons, ih2]
        tauto

theorem stream_add_ret (name_size : Nat) (s : output_stream) (target : List Char) (y : sys)
    (pids : List (Nat × Nat)) (r : Int × output_stream)
    (h : s.add name_size target y pids = some r) : r.1 = 0 ∨ r.1 = -1 := by
  unfold output_stream.add at h
  simp only [output_stream.add_stdout, output_stream.set_pids] at h
  split at h
  · cases h; exact Or.inl rfl
  · split at h
    · cases h
    · split at h
      · split at h
        · cases h; exact Or.inr rfl
        · cases h; exact Or.inl rfl
      · split at h
        · split at h
          · cases h; exact Or.inr rfl
          · split at h
            · split at h
              · cases h; exact Or.inr rfl
              · cases h; exact Or.inl rfl
            · cases h; exact Or.inl rfl
        · cases h; exact Or.inr rfl

theorem search_by_spec (m : List (Int × output_stream)) (verify : output_stream → Bool) :
    search_by m verify = -1 ∨
    ∃ e, e ∈ m ∧ verify e.2 = true ∧ search_by m verify = e.1 := by
  unfold search_by
  cases hf : m.find? (fun e => verify e.2) with
  | none => exact Or.inl rfl
  | some e =>
    exact Or.inr ⟨e, List.mem_of_find?_eq_some hf, by simpa using List.find?_some hf, rfl⟩

/-- A search that returns a non-negative id returns the id of a stream of the
map that the test accepts. -/
theorem search_by_hit (m : List (Int × output_stream)) (verify : output_stream → Bool)
    (h : search_by m verify ≥ 0) :
    ∃ s, (search_by m verify, s) ∈ m ∧ verify s = true := by
  rcases search_by_spec m verify with h1 | ⟨e, he, hv, hs⟩
  · rw [h1] at h; exact absurd h (by decide)
  · refine ⟨e.2, ?_, hv⟩
    rw [hs]
    exact he

/-- The common tail of the `add` overloads returns a negative value, or the old
`num_targets` as a new id, with `num_targets` incremented. -/
theorem finish_add_returns (o : output) (r : Int × output_stream)
    (hr : r.1 = 0 ∨ r.1 = -1) :
    (o.finish_add (o.num_targets : Int) r).1 < 0 ∨
    ((o.finish_add (o.num_targets : Int) r).1 = (o.num_targets : Int) ∧
      (o.finish_add (o.num_targets : Int) r).2.num_targets = o.num_targets + 1) := by
  unfold output.finish_add
  rcases hr with h0 | h1
  · right
    simp [h0]
  · left
    have hne : ¬ r.1 = 0 := by rw [h1]; decide
    rw [if_neg hne]
    show r.1 < 0
    rw [h1]
    decide

theorem stdout_name_ne (name_size : Nat) (t : List Char)
    (ht : t = "-".toList ∨ t = "fd://0".toList ∨ t = "fd:/0".toList) :
    t ≠ strncpy "STDOUT".toList name_size := by
  unfold strncpy
  rcases name_size with _ | n
  · rcases ht with h | h | h <;> subst h <;> simp
  · rcases ht with h | h | h <;> subst h <;> simp [List.take_succ_cons]

/-- A target string that holds one comma-separated item goes to `__add` as it
is. -/
theorem add_single_item (name_size : Nat) (o : output) (t : List Char) (ys : Nat → sys)
    (pids : List (Nat × Nat)) (htok : strtok_all ',' t.length t = [t]) :
    o.add name_size t ys pids = o.__add name_size t (ys 0) pids := by
  unfold output.add
  rw [htok]
  simp only [output.add_items]
  cases o.__add name_size t (ys 0) pids with
  | none => rfl
  | some r =>
    by_cases hr : r.1 < 0
    · simp [hr]
    · simp [hr]

/-- Adding one of the stdout forms to a multiplexer that holds no stream of
that name: the stream is stored under the id `num_targets` with the name
STDOUT, and `num_targets` grows by one. -/
theorem add_stdout_form (name_size : Nat) (o : output) (t : List Char) (y : sys)
    (pids : List (Nat × Nat))
    (ht : t = "-".toList ∨ t = "fd://0".toList ∨ t = "fd:/0".toList)
    (hs : o.search t = -1) :
    ∃ s : output_stream, s.name = strncpy "STDOUT".toList name_size ∧
      o.__add name_size t y pids
        = some ((o.num_targets : Int),
            { o with
              output_streams := map_set (o.num_targets : Int) s o.output_streams
              num_targets := o.num_targets + 1 }) := by
  refine ⟨(output_stream.add_stdout name_size
      { o.stream_at (o.num_targets : Int) with name := t.take (name_size - 1) } pids).2, ?_, ?_⟩
  · simp [output_stream.add_stdout, output_stream.set_pids]
  · have hns : ¬ o.search t ≥ 0 := by rw [hs]; decide
    simp only [output.__add, if_neg hns, output_stream.add, if_pos ht]
    simp [output.finish_add, output_stream.add_stdout, output_stream.set_pids]

/-- One of the stdout forms added twice to a fresh multiplexer: the ids returned
are 0 and then 1, and the multiplexer ends with `num_targets` 2 and the two
targets 0 and 1. -/
theorem stdout_form_added_twice (name_size : Nat) (t : List Char) (ys1 ys2 : Nat → sys)
    (pids : List (Nat × Nat))
    (ht : t = "-".toList ∨ t = "fd://0".toList ∨ t = "fd:/0".toList)
    (htok : strtok_all ',' t.length t = [t]) :
    ((output.init.add name_size t ys1 pids).bind (fun r1 =>
      (r1.2.add name_size t ys2 pids).map (fun r2 =>
        (r1.1, r2.1, r2.2.num_targets, map_keys r2.2.output_streams))))
      = some (0, 1, 2, [0, 1]) := by
  obtain ⟨s1, hn1, h1⟩ := add_stdout_form name_size output.init t (ys1 0) pids ht (by rfl)
  rw [add_single_item _ _ _ _ _ htok, h1, Option.some_bind]
  have hne : ¬ (t = strncpy "STDOUT".toList name_size) := stdout_name_ne name_size t ht
  have hs2 : ({ output.init with
              output_streams := map_set (output.init.num_targets : Int) s1
                output.init.output_streams
              num_targets := output.init.num_targets + 1 } : output).search t = -1 := by
    simp only [output.search, search_by, output.init, map_set, output_stream.verify, hn1,
      List.find?, decide_eq_false hne]
  obtain ⟨s2, hn2, h2⟩ := add_stdout_form name_size _ t (ys2 0) pids ht hs2
  rw [add_single_item _ _ _ _ _ htok, h2]
  simp [output.init, map_set, map_keys]

/-- C2, the code at the failing input: each of the stdout forms "-", "fd://0"
and "fd:/0", added twice to a fresh multiplexer through `output::add`, gets the
id 0 and then the id 1, and `num_targets` and the number of entries of
`output_streams` grow by 2, whatever the size of the `name` buffer; whereas
"udp://host:1234" added twice gets the id 0 both times and `num_targets` grows
by 1. -/
theorem C2_stdout_target_added_twice (name_size : Nat) (ys1 ys2 : Nat → sys)
    (pids : List (Nat × Nat)) :
    ((output.init.add 32 "udp://host:1234".toList (fun _ => sys_ok) []).bind (fun r1 =>
      (r1.2.add 32 "udp://host:1234".toList (fun _ => sys_ok) []).map (fun r2 =>
        (r1.1, r2.1, r2.2.num_targets, map_keys r2.2.output_streams))))
      = some (0, 0, 1, [0]) ∧
    ((output.init.add name_size "-".toList ys1 pids).bind (fun r1 =>
      (r1.2.add name_size "-".toList ys2 pids).map (fun r2 =>
        (r1.1, r2.1, r2.2.num_targets, map_keys r2.2.output_streams))))
      = some (0, 1, 2, [0, 1]) ∧
    ((output.init.add name_size "fd://0".toList ys1 pids).bind (fun r1 =>
      (r1.2.add name_size "fd://0".toList ys2 pids).map (fun r2 =>
        (r1.1, r2.1, r2.2.num_targets, map_keys r2.2.output_streams))))
      = some (0, 1, 2, [0, 1]) ∧
    ((output.init.add name_size "fd:/0".toList ys1 pids).bind (fun r1 =>
      (r1.2.add name_size "fd:/0".toList ys2 pids).map (fun r2 =>
        (r1.1, r2.1, r2.2.num_targets, map_keys r2.2.output_streams))))
      = some (0, 1, 2, [0, 1]) :=
  ⟨by decide,
   stdout_form_added_twice name_size _ ys1 ys2 pids (Or.inl rfl) (by decide),
   stdout_form_added_twice name_size _ ys1 ys2 pids (Or.inr (Or.inl rfl)) (by decide),
   stdout_form_added_twice name_size _ ys1 ys2 pids (Or.inr (Or.inr rfl)) (by decide)⟩

/-- C3, the code at the failing input: on a fresh multiplexer, adding
"udp://nosuchhost.invalid:1234" when the host cannot be resolved returns -1 and
leaves `num_targets` at 0, but `output_streams`, empty before the call, now
holds an entry under the id 0; adding the same string once more returns the id
0 of that entry as if the target existed. -/
theorem C3_failed_add_leaves_entry :
    (output.init.__add 32 "udp://nosuchhost.invalid:1234".toList sys_unresolved []).map
        (fun r => (r.1, r.2.num_targets, map_keys r.2.output_streams))
      = some (-1, 0, [0]) ∧
    map_keys output.init.output_streams = [] ∧
    ((output.init.__add 32 "udp://nosuchhost.invalid:1234".toList sys_unresolved []).bind
      (fun r1 =>
        (r1.2.__add 32 "udp://nosuchhost.invalid:1234".toList sys_unresolved []).map
          (fun r2 => (r2.1, r2.2.num_targets, map_keys r2.2.output_streams))))
      = some (0, 0, [0]) := by
  decide

/-- C9, the code at the failing inputs: for "udp://127.0.0.1" and
"tcp://127.0.0.1", a scheme and a host without a port, and for
"tcpserver:5000", a bare host:port whose host name contains "tcp", the parsing
hands the `NULL` returned by `strtok_r` to `atoi`, and `add` has no defined
result; "tcp://host:80", "host:5000" and "host" are parsed as the claim
says. -/
theorem C9_parse_target_missing_port :
    parse_target "udp://127.0.0.1".toList = none ∧
    parse_target "tcp://127.0.0.1".toList = none ∧
    parse_target "tcpserver:5000".toList = none ∧
    (∀ (name_size : Nat) (s : output_stream) (y : sys) (pids : List (Nat × Nat)),
      s.add name_size "udp://127.0.0.1".toList y pids = none) ∧
    parse_target "tcp://host:80".toList
      = some { b_tcp := true, b_udp := false, b_file := false, ip := "host".toList,
               port := 80 } ∧
    parse_target "host:5000".toList
      = some { b_tcp := false, b_udp := false, b_file := false, ip := "host".toList,
               port := 5000 } ∧
    parse_target "host".toList
      = some { b_tcp := false, b_udp := false, b_file := false, ip := "host".toList,
               port := 1234 } := by
  refine ⟨by decide, by decide, by decide, ?_, by decide, by decide, by decide⟩
  intro name_size s y pids
  have hp : parse_target "udp://127.0.0.1".toList = none := by decide
  have hn : ¬ ("udp://127.0.0.1".toList = "-".toList ∨ "udp://127.0.0.1".toList = "fd://0".toList
      ∨ "udp://127.0.0.1".toList = "fd:/0".toList) := by decide
  simp only [output_stream.add, if_neg hn, hp]

/-! ### `output_stream::push`: the byte counter -/

/-- The per-unit loop on a buffer that holds `n` whole units: it writes as many
units as fit, `min n units_free` of them, counts them, and returns true
exactly when all `n` fitted. -/
theorem push_units_exact (n : Nat) (p_data : List Nat) (s : output_stream)
    (hlt : s.count_in < ULONG_MOD)
    (hcap : s.ringbuffer.data.length ≤ s.ringbuffer.capacity)
    (hlen : 188 * n ≤ p_data.length) :
    (s.push_units p_data n).2.ringbuffer.data
      = s.ringbuffer.data ++ p_data.take (188 * min n s.units_free) ∧
    (s.push_units p_data n).2.count_in
      = (s.count_in + 188 * min n s.units_free) % ULONG_MOD ∧
    ((s.push_units p_data n).1 = true ↔ n ≤ s.units_free) := by
  induction n generalizing p_data s with
  | zero =>
    simp [output_stream.push_units, Nat.mod_eq_of_lt hlt]
  | succ n ih =>
    have htl : (p_data.take 188).length = 188 := by
      rw [List.length_take]; omega
    by_cases hfit : s.ringbuffer.data.length + (p_data.take 188).length ≤ s.ringbuffer.capacity
    · have hfit2 : s.ringbuffer.data.length + 188 ≤ s.ringbuffer.capacity := by
        rw [htl] at hfit; exact hfit
      have hdl : 188 * n ≤ (p_data.drop 188).length := by
        rw [List.length_drop]; omega
      have hcap2 : (s.ringbuffer.data ++ p_data.take 188).length ≤ s.ringbuffer.capacity := by
        rw [List.length_append]; exact hfit
      obtain ⟨hd, hc, hr⟩ := ih (p_data.drop 188)
        { s with
          ringbuffer := { s.ringbuffer with data := s.ringbuffer.data ++ p_data.take 188 }
          count_in := (s.count_in + 188) % ULONG_MOD }
        (Nat.mod_lt _ (by decide)) hcap2 hdl
      have hfree : s.units_free
          = ({ s with
            ringbuffer := { s.ringbuffer with data := s.ringbuffer.data ++ p_data.take 188 }
            count_in := (s.count_in + 188) % ULONG_MOD } : output_stream).units_free + 1 := by
        simp only [output_stream.units_free, List.length_append, htl]
        omega
      have hmin : min (n + 1) s.units_free
          = min n ({ s with
            ringbuffer := { s.ringbuffer with data := s.ringbuffer.data ++ p_data.take 188 }
            count_in := (s.count_in + 188) % ULONG_MOD } : output_stream).units_free + 1 := by
        rw [hfree]; omega
      refine ⟨?_, ?_, ?_⟩
      · simp only [output_stream.push_units, rbuf_write_fits _ _ hfit]
        rw [hd, hmin, Nat.mul_add, Nat.mul_one, Nat.add_comm (188 * _) 188, List.take_add]
        simp
      · simp only [output_stream.push_units, rbuf_write_fits _ _ hfit]
        rw [hc, ulong_add_mod, hmin, Nat.mul_add, Nat.mul_one, Nat.add_comm (188 * _) 188]
      · simp only [output_stream.push_units, rbuf_write_fits _ _ hfit]
        rw [hr, hfree]
        omega
    · have hfree0 : s.units_free = 0 := by
        simp only [output_stream.units_free]
        rw [htl] at hfit
        omega
      refine ⟨?_, ?_, ?_⟩ <;>
        simp [output_stream.push_units, rbuf_write_full _ _ hfit, hfree0,
          Nat.mod_eq_of_lt hlt]

/-- One call of `push` in any fill state: the ring buffer grows by some bytes
`W` of the call and `count_in` grows by the length of `W`. -/
theorem push_accounts (s : output_stream) (p_data : List Nat) (size : Nat)
    (hlt : s.count_in < ULONG_MOD)
    (hcap : s.ringbuffer.data.length ≤ s.ringbuffer.capacity)
    (hsz : size ≤ p_data.length) :
    ∃ W : List Nat,
      (s.push false p_data size).2.ringbuffer.data = s.ringbuffer.data ++ W ∧
      (s.push false p_data size).2.count_in = (s.count_in + W.length) % ULONG_MOD ∧
      (s.push false p_data size).2.ringbuffer.capacity = s.ringbuffer.capacity ∧
      (s.push false p_data size).2.ringbuffer.data.length ≤ s.ringbuffer.capacity := by
  by_cases hpass : pkt_pid p_data = 0 ∨ s.want_pkt p_data = true
  · by_cases hfit : s.ringbuffer.data.length + (p_data.take size).length
        ≤ s.ringbuffer.capacity
    · refine ⟨p_data.take size, ?_, ?_, ?_, ?_⟩
      · simp only [output_stream.push, output_stream.push_write, rbuf_write_fits _ _ hfit,
          if_pos hpass]
        simp
      · simp only [output_stream.push, output_stream.push_write, rbuf_write_fits _ _ hfit,
          if_pos hpass]
        simp [List.length_take, Nat.min_eq_left hsz]
      · simp only [output_stream.push, output_stream.push_write, rbuf_write_fits _ _ hfit,
          if_pos hpass]
        simp
      · simp only [output_stream.push, output_stream.push_write, rbuf_write_fits _ _ hfit,
          if_pos hpass]
        simpa using hfit
    · have hlen : 188 * (size / 188) ≤ p_data.length :=
        le_trans (Nat.mul_div_le size 188) hsz
      obtain ⟨hd, hc, _⟩ := push_units_exact (size / 188) p_data s hlt hcap hlen
      obtain ⟨k, _, _, _, hcp, _, _⟩ := push_units_spec (size / 188) p_data s hlt
      have hk : 188 * min (size / 188) s.units_free ≤ p_data.length :=
        le_trans (Nat.mul_le_mul_left 188 (Nat.min_le_left _ _)) hlen
      have hfree : 188 * min (size / 188) s.units_free
          ≤ s.ringbuffer.capacity - s.ringbuffer.data.length := by
        have h1 : 188 * s.units_free ≤ s.ringbuffer.capacity - s.ringbuffer.data.length := by
          unfold output_stream.units_free
          exact Nat.mul_div_le _ 188
        exact le_trans (Nat.mul_le_mul_left 188 (Nat.min_le_right _ _)) h1
      have hwl : (p_data.take (188 * min (size / 188) s.units_free)).length
          = 188 * min (size / 188) s.units_free := by
        rw [List.length_take]; exact Nat.min_eq_left hk
      refine ⟨p_data.take (188 * min (size / 188) s.units_free), ?_, ?_, ?_, ?_⟩
      · simpa only [output_stream.push, output_stream.push_write, rbuf_write_full _ _ hfit,
          if_pos hpass] using hd
      · rw [hwl]
        simpa only [output_stream.push, output_stream.push_write, rbuf_write_full _ _ hfit,
          if_pos hpass] using hc
      · simpa only [output_stream.push, output_stream.push_write, rbuf_write_full _ _ hfit,
          if_pos hpass] using hcp
      · have hd2 : (s.push false p_data size).2.ringbuffer.data
            = s.ringbuffer.data ++ p_data.take (188 * min (size / 188) s.units_free) := by
          simpa only [output_stream.push, output_stream.push_write,
            rbuf_write_full _ _ hfit, if_pos hpass] using hd
        rw [hd2, List.length_append, hwl]
        omega
  · refine ⟨[], ?_, ?_, ?_, ?_⟩
    · simp only [output_stream.push, if_neg hpass]
      simp
    · simp only [output_stream.push, if_neg hpass]
      simp [Nat.mod_eq_of_lt hlt]
    · simp only [output_stream.push, if_neg hpass]
      simp
    · simp only [output_stream.push, if_neg hpass]
      simpa using hcap

/-- A sequence of `push` calls: the ring buffer grows by some bytes `W` and
`count_in` grows by the length of `W`. -/
theorem push_seq_accounts (calls : List (List Nat × Nat)) (s : output_stream)
    (hlt : s.count_in < ULONG_MOD)
    (hcap : s.ringbuffer.data.length ≤ s.ringbuffer.capacity)
    (hsz : ∀ c ∈ calls, c.2 ≤ c.1.length) :
    ∃ W : List Nat,
      (s.push_seq false calls).ringbuffer.data = s.ringbuffer.data ++ W ∧
      (s.push_seq false calls).count_in = (s.count_in + W.length) % ULONG_MOD ∧
      (s.push_seq false calls).ringbuffer.capacity = s.ringbuffer.capacity ∧
      (s.push_seq false calls).ringbuffer.data.length ≤ s.ringbuffer.capacity := by
  induction calls generalizing s with
  | nil =>
    exact ⟨[], by simp [output_stream.push_seq], by
      simp [output_stream.push_seq, Nat.mod_eq_of_lt hlt], rfl, hcap⟩
  | cons c rest ih =>
    obtain ⟨W1, hd1, hc1, hcp1, hl1⟩ :=
      push_accounts s c.1 c.2 hlt hcap (hsz c (List.mem_cons_self _ _))
    have hlt1 : (s.push false c.1 c.2).2.count_in < ULONG_MOD := by
      rw [hc1]; exact Nat.mod_lt _ (by decide)
    have hcap1 : (s.push false c.1 c.2).2.ringbuffer.data.length
        ≤ (s.push false c.1 c.2).2.ringbuffer.capacity := by
      rw [hcp1]; exact hl1
    obtain ⟨W2, hd2, hc2, hcp2, hl2⟩ := ih (s.push false c.1 c.2).2 hlt1 hcap1
      (fun d hd => hsz d (List.mem_cons_of_mem _ hd))
    refine ⟨W1 ++ W2, ?_, ?_, ?_, ?_⟩
    · simp only [output_stream.push_seq]
      rw [hd2, hd1, List.append_assoc]
    · simp only [output_stream.push_seq]
      rw [hc2, hc1, ulong_add_mod, List.length_append]
    · simp only [output_stream.push_seq]
      rw [hcp2, hcp1]
    · simp only [output_stream.push_seq]
      rw [hcp1] at hl2
      exact hl2

/-- C11: over every sequence of `push` calls on a stream, from any fill state,
the ring buffer grows by the bytes `W` that the calls wrote and `count_in`
grows by the number of those bytes (as an `unsigned long`); on a stream that
starts with an empty ring buffer and `count_in` 0, `count_in` is the number of
bytes in the ring buffer. In one call that passes the PID filter and whose
range does not fit as a whole, exactly the first `min (size / 188) units_free`
whole units, the longest run of whole units that fits, are written and
counted. A call returns false exactly when it passed the filter, its range
did not fit as a whole, and fewer whole units fitted than it holds. -/
theorem C11_count_in_equals_bytes_written (calls : List (List Nat × Nat))
    (s : output_stream) (p_data : List Nat) (size : Nat)
    (hlt : s.count_in < ULONG_MOD)
    (hcap : s.ringbuffer.data.length ≤ s.ringbuffer.capacity)
    (hcalls : ∀ c ∈ calls, c.2 ≤ c.1.length)
    (hsz : size ≤ p_data.length) :
    (∃ W : List Nat,
      (s.push_seq false calls).ringbuffer.data = s.ringbuffer.data ++ W ∧
      (s.push_seq false calls).count_in = (s.count_in + W.length) % ULONG_MOD) ∧
    (s.ringbuffer.data = [] → s.count_in = 0 → s.ringbuffer.capacity < ULONG_MOD →
      (s.push_seq false calls).count_in
        = (s.push_seq false calls).ringbuffer.data.length) ∧
    ((pkt_pid p_data = 0 ∨ s.want_pkt p_data = true) →
      ¬ s.ringbuffer.data.length + (p_data.take size).length ≤ s.ringbuffer.capacity →
      (s.push false p_data size).2.ringbuffer.data
        = s.ringbuffer.data ++ p_data.take (188 * min (size / 188) s.units_free) ∧
      (s.push false p_data size).2.count_in
        = (s.count_in + 188 * min (size / 188) s.units_free) % ULONG_MOD) ∧
    ((s.push false p_data size).1 = false ↔
      ((pkt_pid p_data = 0 ∨ s.want_pkt p_data = true) ∧
       ¬ s.ringbuffer.data.length + (p_data.take size).length ≤ s.ringbuffer.capacity ∧
       s.units_free < size / 188)) := by
  obtain ⟨W, hd, hc, hcp, hl⟩ := push_seq_accounts calls s hlt hcap hcalls
  have hlen : 188 * (size / 188) ≤ p_data.length :=
    le_trans (Nat.mul_div_le size 188) hsz
  obtain ⟨hud, huc, hur⟩ := push_units_exact (size / 188) p_data s hlt hcap hlen
  refine ⟨⟨W, hd, hc⟩, ?_, ?_, ?_⟩
  · intro he h0 hcm
    rw [hd, he] at hl
    rw [hc, hd, he, h0]
    simp only [List.nil_append, Nat.zero_add] at hl ⊢
    exact Nat.mod_eq_of_lt (lt_of_le_of_lt hl hcm)
  · intro hpass hfull
    constructor
    · simpa only [output_stream.push, output_stream.push_write, rbuf_write_full _ _ hfull,
        if_pos hpass] using hud
    · simpa only [output_stream.push, output_stream.push_write, rbuf_write_full _ _ hfull,
        if_pos hpass] using huc
  · by_cases hpass : pkt_pid p_data = 0 ∨ s.want_pkt p_data = true
    · by_cases hfit : s.ringbuffer.data.length + (p_data.take size).length
          ≤ s.ringbuffer.capacity
      · have hr : (s.push false p_data size).1 = true := by
          simp only [output_stream.push, output_stream.push_write,
            rbuf_write_fits _ _ hfit, if_pos hpass]
          simp
        rw [hr]
        constructor
        · intro h
          exact absurd h (by decide)
        · intro h
          exact absurd hfit h.2.1
      · have hr : (s.push false p_data size).1 = (s.push_units p_data (size / 188)).1 := by
          simp only [output_stream.push, output_stream.push_write,
            rbuf_write_full _ _ hfit, if_pos hpass]
          simp
        rw [hr]
        constructor
        · intro hf
          refine ⟨hpass, hfit, ?_⟩
          by_contra hn
          have := hur.mpr (not_lt.mp hn)
          rw [hf] at this
          exact Bool.false_ne_true this
        · intro h
          by_contra hn
          have ht : (s.push_units p_data (size / 188)).1 = true := by
            cases hb : (s.push_units p_data (size / 188)).1 with
            | true => rfl
            | false => exact absurd hb hn
          have := hur.mp ht
          omega
    · simp only [output_stream.push, if_neg hpass]
      simp [hpass]

set_option maxRecDepth 100000 in
/-- C11 witness: on a stream subscribed to PID 100 with an empty ring buffer of
capacity 400, the three calls of `calls_three` leave `count_in` equal to the
number of bytes in the ring buffer. -/
theorem C11_count_in_equals_bytes_written_witness :
    ((stream_sub100 400).push_seq false calls_three).count_in
      = ((stream_sub100 400).push_seq false calls_three).ringbuffer.data.length :=
  (C11_count_in_equals_bytes_written calls_three (stream_sub100 400)
    (mk_packet 0 1) 188 (by decide) (by decide) (by decide) (by decide)).2.1
    rfl rfl (by decide)

/-! ### HTTP chunk framing: the end marker and the length line -/

/-- C15 (amended): on a valid socket, every send taking its whole buffer,
`stream_http_chunk` with length 0 and `send_zero_length` true puts the three
bytes of the zero-length chunk line "0", CR, LF on the wire and returns 0,
without a trailing empty line; with `send_zero_length` false it puts nothing
on the wire and returns 0. -/
theorem C15_http_zero_length_chunk (socket : Int) (buf : List Nat) (n : net)
    (hsock : 0 ≤ socket) (hok : n.script = []) :
    stream_http_chunk socket buf 0 true n
      = (0, { n with wire := n.wire ++ str_bytes "0\r\n" }) ∧
    stream_http_chunk socket buf 0 false n = (0, n) := by
  have hs : ¬ socket < 0 := not_lt.mpr hsock
  have hz : sprintf_x_crlf 0 = ['0', '\r', '\n'] := by decide
  have hb : str_bytes "0\r\n" = [48, 13, 10] := by decide
  constructor
  · simp only [stream_http_chunk, socket_send, hs, hok, hz, hb, if_false]
    simp
  · simp [stream_http_chunk, hs]

/-- C15 witness: on socket 5 the end marker sent is "0", CR, LF. -/
theorem C15_http_zero_length_chunk_witness :
    stream_http_chunk 5 [] 0 true net_ok
      = (0, { net_ok with wire := net_ok.wire ++ str_bytes "0\r\n" }) ∧
    stream_http_chunk 5 [] 0 false net_ok = (0, net_ok) :=
  C15_http_zero_length_chunk 5 [] net_ok (by decide) rfl

/-- C15 as stated fails: with length 0 and `send_zero_length` true the bytes
sent are "0", CR, LF, three bytes, not the five bytes with a trailing empty
line. -/
theorem C15_counterexample :
    (stream_http_chunk 5 [] 0 true net_ok).2.wire = str_bytes "0\r\n" ∧
    (stream_http_chunk 5 [] 0 true net_ok).2.wire ≠ str_bytes "0\r\n\r\n" := by
  decide

theorem toDigitsCore_length_mono (b : Nat) (fuel n : Nat) (ds : List Char) :
    ds.length ≤ (Nat.toDigitsCore b fuel n ds).length := by
  induction fuel generalizing n ds with
  | zero => simp [Nat.toDigitsCore]
  | succ f ih =>
    simp only [Nat.toDigitsCore]
    split
    · simp
    · exact le_trans (by simp) (ih (n / b) (Nat.digitChar (n % b) :: ds))

/-- A number of at least `b ^ e` is printed with at least `e + 1` digits. -/
theorem toDigitsCore_length_ge (b : Nat) (hb : 2 ≤ b) (e : Nat) :
    ∀ (fuel n : Nat) (ds : List Char), n < fuel → b ^ e ≤ n →
      ds.length + e + 1 ≤ (Nat.toDigitsCore b fuel n ds).length := by
  induction e with
  | zero =>
    intro fuel n ds hf _
    obtain ⟨f, rfl⟩ : ∃ f, fuel = f + 1 := ⟨fuel - 1, by omega⟩
    simp only [Nat.toDigitsCore]
    split
    · simp
    · exact le_trans (by simp) (toDigitsCore_length_mono b f (n / b) _)
  | succ e ih =>
    intro fuel n ds hf hn
    obtain ⟨f, rfl⟩ : ∃ f, fuel = f + 1 := ⟨fuel - 1, by omega⟩
    have hbpos : 0 < b := by omega
    have hpow : 0 < b ^ e := Nat.pow_pos hbpos
    have hdiv : b ^ e ≤ n / b := by
      rw [Nat.le_div_iff_mul_le hbpos]
      rw [Nat.pow_succ] at hn
      exact hn
    have hnpos : 0 < n := lt_of_lt_of_le (Nat.pow_pos hbpos) hn
    have hlt : n / b < f := by
      have := Nat.div_lt_self hnpos hb
      omega
    have hne : ¬ n / b = 0 := by omega
    simp only [Nat.toDigitsCore, if_neg hne]
    have := ih f (n / b) (Nat.digitChar (n % b) :: ds) hlt hdiv
    simp only [List.length_cons] at this
    omega

theorem toDigits_hex_length_le (n : Nat) (hn : n < 2 ^ 20) :
    (Nat.toDigits 16 n).length ≤ 5 :=
  Nat.toDigitsCore_length 16 (by decide) (n + 1) n 5 (by
    have : (16 : Nat) ^ 5 = 2 ^ 20 := by norm_num
    rw [this]; exact hn) (by decide)

theorem toDigits_hex_length_ge (n : Nat) (hn : 2 ^ 20 ≤ n) :
    6 ≤ (Nat.toDigits 16 n).length := by
  have h := toDigitsCore_length_ge 16 (by decide) 5 (n + 1) n [] (Nat.lt_succ_self n) (by
    have : (16 : Nat) ^ 5 = 2 ^ 20 := by norm_num
    rw [this]; exact hn)
  simpa [Nat.toDigits] using h

/-- C19 (amended): the text that `sprintf(sz, "%x\r\n", (unsigned int)length)`
writes, with its terminating NUL, fits the 8 bytes of `sz` for every length
below 2^20, hence for every multiple of 188 up to 188*21 = 3948 = 0xf6c that the
worker passes; it needs more than 8 bytes whenever the length as an
`unsigned int`, `length % 2^32`, is at least 2^20, in particular for every
length from 2^20 to 2^32 - 1. -/
theorem C19_http_chunk_length_line_fits (length : Nat) :
    (length < 2 ^ 20 → (sprintf_x_crlf length).length + 1 ≤ 8) ∧
    (length % 188 = 0 → length ≤ 188 * 21 → (sprintf_x_crlf length).length + 1 ≤ 8) ∧
    (2 ^ 20 ≤ length % UINT_MOD → 8 < (sprintf_x_crlf length).length + 1) ∧
    (2 ^ 20 ≤ length → length < 2 ^ 32 → 8 < (sprintf_x_crlf length).length + 1) ∧
    188 * 21 = 3948 ∧ Nat.toDigits 16 3948 = ['f', '6', 'c'] := by
  have hfit : ∀ m : Nat, m < 2 ^ 20 → (sprintf_x_crlf m).length + 1 ≤ 8 := by
    intro m hm
    have hmod : m % UINT_MOD = m := Nat.mod_eq_of_lt (lt_trans hm (by decide))
    have := toDigits_hex_length_le m hm
    simp only [sprintf_x_crlf, hmod, List.length_append, List.length_cons, List.length_nil]
    omega
  have hbig : 2 ^ 20 ≤ length % UINT_MOD → 8 < (sprintf_x_crlf length).length + 1 := by
    intro h
    have := toDigits_hex_length_ge _ h
    simp only [sprintf_x_crlf, List.length_append, List.length_cons, List.length_nil]
    omega
  refine ⟨hfit length, ?_, hbig, ?_, by decide, by decide⟩
  · intro _ hle
    exact hfit length (lt_of_le_of_lt hle (by decide))
  · intro h1 h2
    have hmod : length % UINT_MOD = length := Nat.mod_eq_of_lt h2
    exact hbig (by rw [hmod]; exact h1)

/-- C19 witness: the length 188 is written as "bc", CR, LF and fits; the
length 2^20 is written with six digits and does not. -/
theorem C19_http_chunk_length_line_fits_witness :
    (sprintf_x_crlf 188).length + 1 ≤ 8 ∧ 8 < (sprintf_x_crlf (2 ^ 20)).length + 1 :=
  ⟨(C19_http_chunk_length_line_fits 188).1 (by decide),
   (C19_http_chunk_length_line_fits (2 ^ 20)).2.2.2.1 (by decide) (by decide)⟩

/-- C19 as stated fails for a length of 2^32, which is at least 2^20: as an
`unsigned int` it is 0, and the text "0", CR, LF with its NUL takes 4 bytes. -/
theorem C19_counterexample :
    2 ^ 20 ≤ 2 ^ 32 ∧ sprintf_x_crlf (2 ^ 32) = ['0', '\r', '\n'] ∧
    ¬ 8 < (sprintf_x_crlf (2 ^ 32)).length + 1 := by
  decide

/-! ### Transmission -/

theorem ite_stop_fields (c : Prop) [Decidable c] (s : output_stream) :
    (if c then s.stop_without_wait else s).ringbuffer = s.ringbuffer ∧
    (if c then s.stop_without_wait else s).count_out = s.count_out ∧
    (if c then s.stop_without_wait else s).count_in = s.count_in ∧
    (if c then s.stop_without_wait else s).stream_method = s.stream_method := by
  split <;> exact ⟨rfl, rfl, rfl, rfl⟩

/-- What `stream` leaves alone: the ring buffer, the counters and the
transport kind. -/
theorem stream_fields (s : output_stream) (p_data : List Nat) (size : Nat)
    (k : sink_results) (n : net) :
    (s.stream p_data size k n).2.1.ringbuffer = s.ringbuffer ∧
    (s.stream p_data size k n).2.1.count_out = s.count_out ∧
    (s.stream p_data size k n).2.1.count_in = s.count_in ∧
    (s.stream p_data size k n).2.1.stream_method = s.stream_method := by
  unfold output_stream.stream
  by_cases h0 : size = 0
  · simp [h0]
  · simp only [if_neg h0]
    cases hm : s.stream_method with
    | OUTPUT_STREAM_UDP => exact ⟨rfl, rfl, rfl, hm⟩
    | OUTPUT_STREAM_TCP =>
      have h := fun (c : Prop) (d : Decidable c) => @ite_stop_fields c d s
      simp only [hm] at h
      exact h _ _
    | OUTPUT_STREAM_FILE =>
      have h := fun (c : Prop) (d : Decidable c) => @ite_stop_fields c d s
      simp only [hm] at h
      exact h _ _
    | OUTPUT_STREAM_HTTP =>
      have h := fun (c : Prop) (d : Decidable c) => @ite_stop_fields c d s
      simp only [hm] at h
      exact h _ _
    | OUTPUT_STREAM_FUNC =>
      have h := fun (c : Prop) (d : Decidable c) => @ite_stop_fields c d s
      simp only [hm] at h
      exact h _ _
    | OUTPUT_STREAM_INTF =>
      have h := fun (c : Prop) (d : Decidable c) => @ite_stop_fields c d s
      simp only [hm] at h
      exact h _ _
    | OUTPUT_STREAM_STDOUT =>
      have h := fun (c : Prop) (d : Decidable c) => @ite_stop_fields c d s
      simp only [hm] at h
      exact h _ _

/-- C13 (amended): on a non-empty buffer, with the termination flag not yet
raised, `stream` raises it for TCP and HTTP exactly when the send returns a
negative value, for a file sink exactly when `write` returns a negative value
(a short write does not raise it), for stdout exactly when the bytes `fwrite`
reports differ from `size`, for a callback or interface sink exactly when none
is installed or it returns a negative value, and never for UDP. -/
theorem C13_stream_termination_flag (s : output_stream) (p_data : List Nat) (size : Nat)
    (k : sink_results) (n : net) (hsize : size ≠ 0) (hflag : s.f_kill_thread = false) :
    ((s.stream p_data size k n).2.1.f_kill_thread = true ↔
      match s.stream_method with
      | OUTPUT_STREAM_UDP => False
      | OUTPUT_STREAM_TCP => (socket_send s.sock p_data size n).1 < 0
      | OUTPUT_STREAM_FILE => k.write_ret < 0
      | OUTPUT_STREAM_HTTP => (stream_http_chunk s.sock p_data size false n).1 < 0
      | OUTPUT_STREAM_FUNC => s.stream_cb = 0 ∨ k.cb_ret < 0
      | OUTPUT_STREAM_INTF => s.m_iface = 0 ∨ k.iface_ret < 0
      | OUTPUT_STREAM_STDOUT => write_stdout size k.fwrite_items ≠ size) := by
  unfold output_stream.stream
  simp only [if_neg hsize]
  cases hm : s.stream_method with
  | OUTPUT_STREAM_UDP => simp [hflag]
  | OUTPUT_STREAM_TCP =>
    by_cases h : (socket_send s.sock p_data size n).1 < 0
    · simp [h, output_stream.stop_without_wait]
    · simp [h, hflag]
  | OUTPUT_STREAM_FILE =>
    by_cases h : k.write_ret < 0
    · simp [h, output_stream.stop_without_wait]
    · simp [h, hflag]
  | OUTPUT_STREAM_HTTP =>
    by_cases h : (stream_http_chunk s.sock p_data size false n).1 < 0
    · simp [h, output_stream.stop_without_wait]
    · simp [h, hflag]
  | OUTPUT_STREAM_FUNC =>
    by_cases hc : s.stream_cb = 0
    · simp [hc, output_stream.stop_without_wait]
    · by_cases h : k.cb_ret < 0
      · simp [hc, h, output_stream.stop_without_wait]
      · simp [hc, h, hflag]
  | OUTPUT_STREAM_INTF =>
    by_cases hc : s.m_iface = 0
    · simp [hc, output_stream.stop_without_wait]
    · by_cases h : k.iface_ret < 0
      · simp [hc, h, output_stream.stop_without_wait]
      · simp [hc, h, hflag]
  | OUTPUT_STREAM_STDOUT =>
    by_cases h : write_stdout size k.fwrite_items = size
    · simp [h, hflag]
    · have h2 : ¬ ((write_stdout size k.fwrite_items : Nat) : Int) = (size : Int) := by
        exact_mod_cast h
      simp [h, h2, output_stream.stop_without_wait]

/-- C13 witness: a `write` that takes 100 of 188 bytes does not raise the
termination flag of a file sink, while an `fwrite` that takes none of the 188
bytes raises the flag of a stdout sink. -/
theorem C13_stream_termination_flag_witness :
    (stream_file.stream (mk_packet 0 1) 188 sinks_short net_ok).2.1.f_kill_thread = false ∧
    (stream_stdout.stream (mk_packet 0 1) 188 sinks_short net_ok).2.1.f_kill_thread = true :=
  ⟨Bool.eq_false_iff.mpr (fun h =>
      have h2 : (100 : Int) < 0 :=
        (C13_stream_termination_flag stream_file (mk_packet 0 1) 188 sinks_short net_ok
          (by decide) rfl).mp h
      absurd h2 (by decide)),
   (C13_stream_termination_flag stream_stdout (mk_packet 0 1) 188 sinks_short net_ok
      (by decide) rfl).mpr
      (show write_stdout 188 sinks_short.fwrite_items ≠ 188 by decide)⟩

set_option maxRecDepth 100000 in
/-- C13 as stated fails for a file sink: a short write, `write` taking 100 of
the 188 bytes requested, leaves the termination flag down. -/
theorem C13_counterexample :
    (stream_file.stream (mk_packet 0 1) 188 sinks_short net_ok).1 = 100 ∧
    (stream_file.stream (mk_packet 0 1) 188 sinks_short net_ok).2.1.f_kill_thread
      = false := by
  decide

/-! ### The worker loop -/

theorem packet_size_le (s : output_stream) :
    s.OUTPUT_STREAM_PACKET_SIZE
      = (if s.stream_method = OUTPUT_STREAM_UDP then 1316 else 3948) := by
  unfold output_stream.OUTPUT_STREAM_PACKET_SIZE
  split <;> rfl

/-- One pass of the worker loop, unfolded: it sleeps and changes nothing when
fewer than `OUTPUT_STREAM_PACKET_SIZE` bytes are buffered; otherwise it hands
the read view, cut to whole units, to `stream`, then releases and counts that
many bytes whatever `stream` returned. -/
theorem worker_iter_spec (s : output_stream) (k : sink_results) (contig : Nat) (n : net) :
    (s.ringbuffer.get_size < s.OUTPUT_STREAM_PACKET_SIZE →
      s.worker_iter k contig n
        = { slept := true, stream_ret := 0, released := 0, s := s, n := n }) ∧
    (¬ s.ringbuffer.get_size < s.OUTPUT_STREAM_PACKET_SIZE →
      (s.worker_iter k contig n).slept = false ∧
      (s.worker_iter k contig n).released
        = (s.ringbuffer.get_read_ptr s.OUTPUT_STREAM_PACKET_SIZE contig).length / 188 * 188 ∧
      (s.worker_iter k contig n).stream_ret
        = (s.stream (s.ringbuffer.get_read_ptr s.OUTPUT_STREAM_PACKET_SIZE contig)
            (s.worker_iter k contig n).released k n).1 ∧
      (s.worker_iter k contig n).n
        = (s.stream (s.ringbuffer.get_read_ptr s.OUTPUT_STREAM_PACKET_SIZE contig)
            (s.worker_iter k contig n).released k n).2.2 ∧
      (s.worker_iter k contig n).s.ringbuffer.data
        = s.ringbuffer.data.drop (s.worker_iter k contig n).released ∧
      (s.worker_iter k contig n).s.count_out
        = (s.count_out + (s.worker_iter k contig n).released) % ULONG_MOD) := by
  constructor
  · intro h
    simp only [output_stream.worker_iter, if_pos h]
  · intro h
    have hf := stream_fields s (s.ringbuffer.get_read_ptr s.OUTPUT_STREAM_PACKET_SIZE contig)
      ((s.ringbuffer.get_read_ptr s.OUTPUT_STREAM_PACKET_SIZE contig).length / 188 * 188) k n
    simp only [output_stream.worker_iter, if_neg h, rbuf.put_read_ptr, hf.1, hf.2.1]
    simp

/-- C12 (amended): in every pass of the worker loop the number of bytes
released from the ring buffer and added to `count_out` is the size of the
batch handed to `stream`, the read view rounded down to whole 188-byte units,
whatever `stream` returned; a pass that sleeps releases and counts nothing. For
a UDP stream on a valid socket whose send takes the whole batch, the bytes put
on the wire are exactly the bytes released and counted. -/
theorem C12_worker_releases_batch (s : output_stream) (k : sink_results) (contig : Nat)
    (n : net) :
    ((s.worker_iter k contig n).slept = true →
      (s.worker_iter k contig n).s = s ∧ (s.worker_iter k contig n).n = n ∧
      (s.worker_iter k contig n).released = 0) ∧
    ((s.worker_iter k contig n).slept = false →
      (s.worker_iter k contig n).released
        = (s.ringbuffer.get_read_ptr s.OUTPUT_STREAM_PACKET_SIZE contig).length / 188 * 188 ∧
      (s.worker_iter k contig n).s.ringbuffer.data
        = s.ringbuffer.data.drop (s.worker_iter k contig n).released ∧
      (s.worker_iter k contig n).s.count_out
        = (s.count_out + (s.worker_iter k contig n).released) % ULONG_MOD) ∧
    (s.stream_method = OUTPUT_STREAM_UDP → 0 ≤ s.sock → n.script = [] →
      (s.worker_iter k contig n).slept = false →
      (s.worker_iter k contig n).released ≠ 0 →
      (s.worker_iter k contig n).stream_ret = ((s.worker_iter k contig n).released : Int) ∧
      (s.worker_iter k contig n).n.wire
        = n.wire ++ s.ringbuffer.data.take (s.worker_iter k contig n).released) := by
  obtain ⟨hsleep, hrun⟩ := worker_iter_spec s k contig n
  by_cases h : s.ringbuffer.get_size < s.OUTPUT_STREAM_PACKET_SIZE
  · have e := hsleep h
    refine ⟨fun _ => ?_, fun hs => ?_, fun _ _ _ hs => ?_⟩
    · rw [e]; exact ⟨rfl, rfl, rfl⟩
    · rw [e] at hs; simp at hs
    · rw [e] at hs; simp at hs
  · obtain ⟨hs, hrel, hret, hn, hd, hc⟩ := hrun h
    refine ⟨fun hs2 => ?_, fun _ => ⟨hrel, hd, hc⟩, fun hudp hsock hok _ hne => ?_⟩
    · rw [hs] at hs2; exact absurd hs2 (by decide)
    · have hnl : ¬ s.sock < 0 := not_lt.mpr hsock
      have hle : (s.worker_iter k contig n).released
          ≤ min s.OUTPUT_STREAM_PACKET_SIZE contig := by
        rw [hrel]
        apply le_trans (Nat.div_mul_le_self _ 188)
        unfold rbuf.get_read_ptr
        rw [List.length_take]
        exact Nat.min_le_left _ _
      have htake : List.take (s.worker_iter k contig n).released
          (s.ringbuffer.get_read_ptr s.OUTPUT_STREAM_PACKET_SIZE contig)
          = s.ringbuffer.data.take (s.worker_iter k contig n).released := by
        unfold rbuf.get_read_ptr
        rw [List.take_take, Nat.min_eq_left hle]
      constructor
      · rw [hret]
        simp only [output_stream.stream, if_neg hne, hudp, socket_send, if_neg hnl, hok]
      · rw [hn]
        simp only [output_stream.stream, if_neg hne, hudp, socket_send, if_neg hnl, hok, htake]

set_option maxRecDepth 1000000 in
/-- C12 witness: after seven PID-0 packets have been pushed into a fresh UDP
stream and the send succeeds, one pass of the worker puts one batch of 1316
bytes on the wire and `count_out` is 1316. -/
theorem C12_worker_releases_batch_witness :
    ((stream_udp.push_seq false calls_seven).worker_iter sinks_short 2000 net_ok).n.wire.length
      = 1316 ∧
    ((stream_udp.push_seq false calls_seven).worker_iter sinks_short 2000 net_ok).s.count_out
      = 1316 :=
  ⟨(congrArg List.length
      ((C12_worker_releases_batch (stream_udp.push_seq false calls_seven) sinks_short 2000
        net_ok).2.2 (by decide) (by decide) rfl (by decide) (by decide)).2).trans (by decide),
   ((C12_worker_releases_batch (stream_udp.push_seq false calls_seven) sinks_short 2000
      net_ok).2.1 (by decide)).2.2.trans (by decide)⟩

set_option maxRecDepth 1000000 in
/-- C12 as stated fails when the transmission fails: with seven packets
buffered in a UDP stream and a send that returns -1, nothing is put on the
wire, yet 1316 bytes are released from the ring buffer and `count_out` is
1316. -/
theorem C12_counterexample :
    ((stream_udp.push_seq false calls_seven).worker_iter sinks_short 2000 net_fail).stream_ret
      = -1 ∧
    ((stream_udp.push_seq false calls_seven).worker_iter sinks_short 2000 net_fail).n.wire
      = [] ∧
    ((stream_udp.push_seq false calls_seven).worker_iter sinks_short 2000 net_fail).released
      = 1316 ∧
    ((stream_udp.push_seq false calls_seven).worker_iter sinks_short 2000
        net_fail).s.ringbuffer.data = [] ∧
    ((stream_udp.push_seq false calls_seven).worker_iter sinks_short 2000 net_fail).s.count_out
      = 1316 := by
  decide

/-- C18 (amended): a pass of the worker loop sleeps and transmits nothing exactly
when the ring buffer holds fewer bytes than one batch, 7 units (1316 bytes) for
UDP and 21 units (3948 bytes) for every other kind; once a whole batch is
buffered it does not sleep but takes a read view of at most the batch, rounds
it down to whole 188-byte units and hands it to `stream`. -/
theorem C18_worker_batch_threshold (s : output_stream) (k : sink_results) (contig : Nat)
    (n : net) :
    s.OUTPUT_STREAM_PACKET_SIZE
      = (if s.stream_method = OUTPUT_STREAM_UDP then 1316 else 3948) ∧
    ((s.worker_iter k contig n).slept = true
      ↔ s.ringbuffer.get_size < s.OUTPUT_STREAM_PACKET_SIZE) ∧
    ((s.worker_iter k contig n).slept = true →
      (s.worker_iter k contig n).s = s ∧ (s.worker_iter k contig n).n = n) ∧
    ((s.worker_iter k contig n).slept = false →
      (s.worker_iter k contig n).released ≤ s.OUTPUT_STREAM_PACKET_SIZE ∧
      (s.worker_iter k contig n).released % 188 = 0 ∧
      (s.worker_iter k contig n).stream_ret
        = (s.stream (s.ringbuffer.get_read_ptr s.OUTPUT_STREAM_PACKET_SIZE contig)
            (s.worker_iter k contig n).released k n).1 ∧
      (s.worker_iter k contig n).n
        = (s.stream (s.ringbuffer.get_read_ptr s.OUTPUT_STREAM_PACKET_SIZE contig)
            (s.worker_iter k contig n).released k n).2.2) := by
  obtain ⟨hsleep, hrun⟩ := worker_iter_spec s k contig n
  refine ⟨packet_size_le s, ?_⟩
  by_cases h : s.ringbuffer.get_size < s.OUTPUT_STREAM_PACKET_SIZE
  · have e := hsleep h
    refine ⟨⟨fun _ => h, fun _ => by rw [e]⟩, fun _ => by rw [e]; exact ⟨rfl, rfl⟩,
      fun hs => ?_⟩
    rw [e] at hs; simp at hs
  · obtain ⟨hs, hrel, hret, hn, _, _⟩ := hrun h
    refine ⟨⟨fun hs2 => ?_, fun h2 => absurd h2 h⟩, fun hs2 => ?_,
      fun _ => ⟨?_, ?_, hret, hn⟩⟩
    · rw [hs] at hs2; exact absurd hs2 (by decide)
    · rw [hs] at hs2; exact absurd hs2 (by decide)
    · rw [hrel]
      apply le_trans (Nat.div_mul_le_self _ 188)
      unfold rbuf.get_read_ptr
      rw [List.length_take]
      exact le_trans (Nat.min_le_left _ _) (Nat.min_le_left _ _)
    · rw [hrel]
      exact Nat.mul_mod_left _ _

set_option maxRecDepth 1000000 in
/-- C18 witness: with seven packets buffered a UDP worker does not sleep. -/
theorem C18_worker_batch_threshold_witness :
    ((stream_udp.push_seq false calls_seven).worker_iter sinks_short 2000 net_ok).slept
      = false :=
  Bool.eq_false_iff.mpr (fun h =>
    absurd ((C18_worker_batch_threshold (stream_udp.push_seq false calls_seven) sinks_short
      2000 net_ok).2.1.mp h) (by decide))

set_option maxRecDepth 1000000 in
/-- C18 as stated fails below one batch: a UDP stream whose ring buffer holds
one full 188-byte unit makes the worker sleep and transmit nothing. -/
theorem C18_counterexample :
    (stream_udp.push false (mk_packet 0 1) 188).2.ringbuffer.get_size = 188 ∧
    ((stream_udp.push false (mk_packet 0 1) 188).2.worker_iter sinks_short 2000 net_ok).slept
      = true ∧
    ((stream_udp.push false (mk_packet 0 1) 188).2.worker_iter sinks_short 2000 net_ok).n.wire
      = [] := by
  decide

/-! ### The multiplexer: comma-separated targets -/

theorem option_eq_some_getD {α : Type} (x : Option α) (d : α) (h : x.isSome = true) :
    x = some (x.getD d) := by
  cases x with
  | none => simp at h
  | some a => rfl

theorem add_items_nil (name_size : Nat) (ys : Nat → sys) (pids : List (Nat × Nat))
    (i : Nat) (ret : Int) (o : output) :
    output.add_items name_size ys pids i ret o [] = some (ret, o) := by
  simp [output.add_items]

/-- The loop of `output::add` over a first part `pre` of the items and the rest
`post`: it ends in `pre` when an item of `pre` fails, else it goes on with
`post` in the state reached. -/
theorem add_items_append (name_size : Nat) (ys : Nat → sys)
    (pids : List (Nat × Nat)) (pre post : List (List Char)) (i : Nat) (ret : Int)
    (o : output) :
    output.add_items name_size ys pids i ret o (pre ++ post) =
      match output.add_items name_size ys pids i ret o pre with
      | none => none
      | some r =>
        if pre ≠ [] ∧ r.1 < 0 then some r
        else output.add_items name_size ys pids (i + pre.length) r.1 r.2 post := by
  induction pre generalizing i ret o with
  | nil => simp [output.add_items]
  | cons item rest ih =>
    simp only [List.cons_append, output.add_items]
    cases hadd : o.__add name_size item (ys i) pids with
    | none => simp
    | some r1 =>
      by_cases hneg : r1.1 < 0
      · simp [hneg]
      · simp only [if_neg hneg]
        change output.add_items name_size ys pids (i + 1) r1.1 r1.2 (rest ++ post) = _
        rw [ih]
        have hidx : i + 1 + rest.length = i + (item :: rest).length := by
          simp only [List.length_cons]; omega
        rw [hidx]
        cases hrest : output.add_items name_size ys pids (i + 1) r1.1 r1.2 rest with
        | none => rfl
        | some r =>
          by_cases hr : r.1 < 0
          · have hne : rest ≠ [] := by
              intro he
              subst he
              rw [add_items_nil] at hrest
              simp only [Option.some.injEq] at hrest
              rw [← hrest] at hr
              exact hneg hr
            simp [hr, hne]
          · simp [hr]

theorem finish_add_streams (o : output) (id : Int) (r : Int × output_stream) :
    (o.finish_add id r).2.output_streams = map_set id r.2 o.output_streams := by
  unfold output.finish_add
  split <;> rfl

/-- Whatever `__add` returns, the ids in `output_streams` before the call are in
it after the call. -/
theorem __add_keys_mono (name_size : Nat) (o : output) (target : List Char) (y : sys)
    (pids : List (Nat × Nat)) (r : Int × output)
    (h : o.__add name_size target y pids = some r) (k : Int)
    (hk : k ∈ map_keys o.output_streams) : k ∈ map_keys r.2.output_streams := by
  unfold output.__add at h
  by_cases hs : o.search target ≥ 0
  · simp only [if_pos hs, Option.some.injEq] at h
    subst h
    exact hk
  · simp only [if_neg hs] at h
    cases ha : (o.stream_at (o.num_targets : Int)).add name_size target y pids with
    | none => simp [ha] at h
    | some r0 =>
      simp only [ha, Option.some.injEq] at h
      subst h
      rw [finish_add_streams]
      exact (mem_map_keys_set _ _ _ k).mpr (Or.inr hk)

/-- A non-negative value returned by `__add` is the id of a stream in
`output_streams` after the call. -/
theorem __add_registered (name_size : Nat) (o : output) (target : List Char) (y : sys)
    (pids : List (Nat × Nat)) (r : Int × output)
    (h : o.__add name_size target y pids = some r) (hr : 0 ≤ r.1) :
    r.1 ∈ map_keys r.2.output_streams := by
  unfold output.__add at h
  by_cases hs : o.search target ≥ 0
  · simp only [if_pos hs, Option.some.injEq] at h
    subst h
    obtain ⟨s, hmem, _⟩ := search_by_hit _ _ hs
    exact List.mem_map.mpr ⟨_, hmem, rfl⟩
  · simp only [if_neg hs] at h
    cases ha : (o.stream_at (o.num_targets : Int)).add name_size target y pids with
    | none => simp [ha] at h
    | some r0 =>
      simp only [ha, Option.some.injEq] at h
      subst h
      rw [finish_add_streams]
      rcases finish_add_returns o r0 (stream_add_ret _ _ _ _ _ _ ha) with h1 | h2
      · exact absurd hr (not_le.mpr h1)
      · rw [h2.1]
        exact (mem_map_keys_set _ _ _ _).mpr (Or.inl rfl)

/-- A call of `__add` that returns a negative value leaves `num_targets` as it
was. -/
theorem __add_failed (name_size : Nat) (o : output) (target : List Char) (y : sys)
    (pids : List (Nat × Nat)) (r : Int × output)
    (h : o.__add name_size target y pids = some r) (hr : r.1 < 0) :
    r.2.num_targets = o.num_targets := by
  unfold output.__add at h
  by_cases hs : o.search target ≥ 0
  · simp only [if_pos hs, Option.some.injEq] at h
    subst h
    rfl
  · simp only [if_neg hs] at h
    cases ha : (o.stream_at (o.num_targets : Int)).add name_size target y pids with
    | none => simp [ha] at h
    | some r0 =>
      simp only [ha, Option.some.injEq] at h
      subst h
      unfold output.finish_add at hr ⊢
      by_cases h0 : r0.1 = 0
      · simp only [if_pos h0] at hr
        exact absurd (Int.natCast_nonneg o.num_targets) (not_le.mpr hr)
      · simp only [if_neg h0]

theorem add_items_keys_mono (name_size : Nat) (ys : Nat → sys) (pids : List (Nat × Nat))
    (l : List (List Char)) (i : Nat) (ret : Int) (o : output) (r : Int × output)
    (h : output.add_items name_size ys pids i ret o l = some r) (k : Int)
    (hk : k ∈ map_keys o.output_streams) : k ∈ map_keys r.2.output_streams := by
  induction l generalizing i ret o with
  | nil =>
    rw [add_items_nil] at h
    simp only [Option.some.injEq] at h
    subst h
    exact hk
  | cons item rest ih =>
    simp only [output.add_items] at h
    cases hadd : o.__add name_size item (ys i) pids with
    | none => simp [hadd] at h
    | some r1 =>
      simp only [hadd] at h
      have hk1 := __add_keys_mono name_size o item (ys i) pids r1 hadd k hk
      by_cases hneg : r1.1 < 0
      · simp only [if_pos hneg, Option.some.injEq] at h
        subst h
        exact hk1
      · simp only [if_neg hneg] at h
        exact ih (i + 1) r1.1 r1.2 h hk1

theorem add_items_registered (name_size : Nat) (ys : Nat → sys) (pids : List (Nat × Nat))
    (l : List (List Char)) (i : Nat) (ret : Int) (o : output) (r : Int × output)
    (h : output.add_items name_size ys pids i ret o l = some r) (hl : l ≠ [])
    (hr : 0 ≤ r.1) : r.1 ∈ map_keys r.2.output_streams := by
  induction l generalizing i ret o with
  | nil => exact absurd rfl hl
  | cons item rest ih =>
    simp only [output.add_items] at h
    cases hadd : o.__add name_size item (ys i) pids with
    | none => simp [hadd] at h
    | some r1 =>
      simp only [hadd] at h
      by_cases hneg : r1.1 < 0
      · simp only [if_pos hneg, Option.some.injEq] at h
        subst h
        exact absurd hr (not_le.mpr hneg)
      · simp only [if_neg hneg] at h
        cases rest with
        | nil =>
          rw [add_items_nil] at h
          simp only [Option.some.injEq] at h
          subst h
          exact __add_registered name_size o item (ys i) pids r1 hadd (not_lt.mp hneg)
        | cons t rest2 => exact ih (i + 1) r1.1 r1.2 h (by simp)

/-- A run of the loop that ends without a failure has passed every first part
of the items without a failure. -/
theorem add_items_prefix (name_size : Nat) (ys : Nat → sys) (pids : List (Nat × Nat))
    (p q : List (List Char)) (i : Nat) (ret : Int) (o : output) (r : Int × output)
    (h : output.add_items name_size ys pids i ret o (p ++ q) = some r) (hr : 0 ≤ r.1)
    (hp : p ≠ []) :
    ∃ r1, output.add_items name_size ys pids i ret o p = some r1 ∧ 0 ≤ r1.1 ∧
      output.add_items name_size ys pids (i + p.length) r1.1 r1.2 q = some r := by
  rw [add_items_append] at h
  cases hpre : output.add_items name_size ys pids i ret o p with
  | none => simp [hpre] at h
  | some r1 =>
    simp only [hpre] at h
    by_cases hneg : r1.1 < 0
    · rw [if_pos ⟨hp, hneg⟩] at h
      simp only [Option.some.injEq] at h
      subst h
      exact absurd hr (not_le.mpr hneg)
    · rw [if_neg (fun hc => hneg hc.2)] at h
      exact ⟨r1, rfl, not_lt.mp hneg, h⟩

/-- The item that follows a first part `pre` passed without a failure is handed
to `__add` on the multiplexer that `pre` left. -/
theorem add_items_next (name_size : Nat) (ys : Nat → sys) (pids : List (Nat × Nat))
    (pre post : List (List Char)) (item : List Char) (i : Nat) (ret ret1 : Int)
    (o o1 : output)
    (hpre : output.add_items name_size ys pids i ret o pre = some (ret1, o1))
    (hgood : pre = [] ∨ 0 ≤ ret1) :
    output.add_items name_size ys pids i ret o (pre ++ item :: post) =
      match o1.__add name_size item (ys (i + pre.length)) pids with
      | none => none
      | some r =>
        if r.1 < 0 then some r
        else output.add_items name_size ys pids (i + pre.length + 1) r.1 r.2 post := by
  rw [add_items_append, hpre]
  have hc : ¬ (pre ≠ [] ∧ ret1 < 0) := by
    rintro ⟨h1, h2⟩
    rcases hgood with h | h
    · exact h1 h
    · exact absurd h (not_le.mpr h2)
  simp only [if_neg hc, output.add_items]

theorem add_eq_add_items (name_size : Nat) (o : output) (target : List Char)
    (ys : Nat → sys) (pids : List (Nat × Nat)) (items : List (List Char))
    (htok : strtok_all ',' target.length target = items) (hne : items ≠ []) :
    o.add name_size target ys pids = output.add_items name_size ys pids 0 (-1) o items := by
  unfold output.add
  rw [htok]
  cases items with
  | nil => exact absurd rfl hne
  | cons a rest => rfl

/-- C14 (amended): `output::add` on a target string whose comma-separated items
are `pre`, then `item`, then `post`, when the items of `pre` have been passed
without a failure and have left the multiplexer `o1`.
Every item of `pre` has been given a non-negative id, which is the id of a
stream in `output_streams` of `o1`. `item` is handed to `__add` on `o1`.
If that call returns a negative value, `add` returns what that call returned,
value and multiplexer: no item of `post` is handed to `__add`, `num_targets` is
as `pre` left it, and the ids that were in `output_streams` stay in it.
If that call returns a non-negative value, it is the id of a stream in
`output_streams`, the ids that were there stay, and when `item` is the last
item `add` returns what that call returned. -/
theorem C14_add_stops_at_first_failure (name_size : Nat) (ys : Nat → sys)
    (pids : List (Nat × Nat)) (o o1 : output) (target : List Char)
    (pre post : List (List Char)) (item : List Char) (ret1 : Int)
    (htok : strtok_all ',' target.length target = pre ++ item :: post)
    (hpre : output.add_items name_size ys pids 0 (-1) o pre = some (ret1, o1))
    (hgood : pre = [] ∨ 0 ≤ ret1) :
    (∀ p1 t p2, pre = p1 ++ t :: p2 →
      ∃ id oo, output.add_items name_size ys pids 0 (-1) o (p1 ++ [t]) = some (id, oo) ∧
        0 ≤ id ∧ id ∈ map_keys o1.output_streams) ∧
    (o1.__add name_size item (ys pre.length) pids = none →
      o.add name_size target ys pids = none) ∧
    (∀ r, o1.__add name_size item (ys pre.length) pids = some r → r.1 < 0 →
      o.add name_size target ys pids = some r ∧
      r.2.num_targets = o1.num_targets ∧
      ∀ k ∈ map_keys o1.output_streams, k ∈ map_keys r.2.output_streams) ∧
    (∀ r, o1.__add name_size item (ys pre.length) pids = some r → 0 ≤ r.1 →
      output.add_items name_size ys pids 0 (-1) o (pre ++ [item]) = some r ∧
      r.1 ∈ map_keys r.2.output_streams ∧
      (∀ k ∈ map_keys o1.output_streams, k ∈ map_keys r.2.output_streams) ∧
      (post = [] → o.add name_size target ys pids = some r)) := by
  have hadd : o.add name_size target ys pids
      = output.add_items name_size ys pids 0 (-1) o (pre ++ item :: post) :=
    add_eq_add_items name_size o target ys pids _ htok (by simp)
  have hnext := fun (post2 : List (List Char)) =>
    add_items_next name_size ys pids pre post2 item 0 (-1) ret1 o o1 hpre hgood
  simp only [Nat.zero_add] at hnext
  refine ⟨?_, ?_, ?_, ?_⟩
  · intro p1 t p2 hsplit
    have hne : pre ≠ [] := by rw [hsplit]; simp
    have hret : 0 ≤ ret1 := by
      rcases hgood with h | h
      · exact absurd h hne
      · exact h
    have hpre2 : output.add_items name_size ys pids 0 (-1) o ((p1 ++ [t]) ++ p2)
        = some (ret1, o1) := by
      rw [List.append_assoc]
      simpa [hsplit] using hpre
    obtain ⟨r1, hr1, hpos, hrest⟩ :=
      add_items_prefix name_size ys pids (p1 ++ [t]) p2 0 (-1) o (ret1, o1) hpre2 hret
        (by simp)
    refine ⟨r1.1, r1.2, hr1, hpos, ?_⟩
    have hreg := add_items_registered name_size ys pids (p1 ++ [t]) 0 (-1) o r1 hr1
      (by simp) hpos
    exact add_items_keys_mono name_size ys pids p2 _ r1.1 r1.2 (ret1, o1) hrest r1.1 hreg
  · intro hnone
    rw [hadd, hnext post, hnone]
  · intro r hr hneg
    refine ⟨?_, __add_failed name_size o1 item _ pids r hr hneg,
      fun k hk => __add_keys_mono name_size o1 item _ pids r hr k hk⟩
    rw [hadd, hnext post, hr]
    simp only [if_pos hneg]
  · intro r hr hpos
    have hsnoc : output.add_items name_size ys pids 0 (-1) o (pre ++ [item]) = some r := by
      rw [hnext [], hr]
      simp only [if_neg (not_lt.mpr hpos), add_items_nil]
    refine ⟨hsnoc, __add_registered name_size o1 item _ pids r hr hpos,
      fun k hk => __add_keys_mono name_size o1 item _ pids r hr k hk, ?_⟩
    intro hpost
    rw [hadd, hpost]
    exact hsnoc

theorem after_host_failure_eq :
    output_host.__add 32 "udp://nosuchhost.invalid:1234".toList sys_unresolved []
      = some after_host_failure :=
  option_eq_some_getD _ _ (by decide)

set_option maxRecDepth 100000 in
/-- C14 (amended) witness: in "host,udp://nosuchhost.invalid:1234,host2" the
first item is added under the id 0, the second fails: `add` returns -1 with
`num_targets` 1, the id 0 still registered and "host2" not handed to `__add`. -/
theorem C14_add_stops_at_first_failure_witness :
    output.init.add 32 "host,udp://nosuchhost.invalid:1234,host2".toList
        sys_second_unresolved [] = some after_host_failure ∧
    after_host_failure.1 = -1 ∧
    after_host_failure.2.num_targets = 1 ∧
    (0 : Int) ∈ map_keys after_host_failure.2.output_streams ∧
    after_host_failure.2.search "host2".toList = -1 :=
  have h := (C14_add_stops_at_first_failure 32 sys_second_unresolved [] output.init
    output_host "host,udp://nosuchhost.invalid:1234,host2".toList ["host".toList]
    ["host2".toList] "udp://nosuchhost.invalid:1234".toList 0 (by decide) (by decide)
    (Or.inr (by decide))).2.2.1 after_host_failure after_host_failure_eq (by decide)
  ⟨h.1, by decide, h.2.1, h.2.2 0 (by decide), by decide⟩

set_option maxRecDepth 100000 in
/-- C14 as stated fails: in "udp://nosuchhost.invalid:1234,host2" the first
segment fails, `add` returns -1, and the second segment "host2" is not
registered, although "host2" on its own is added under the id 0. -/
theorem C14_counterexample :
    (output.init.add 32 "host2".toList (fun _ => sys_ok) []).map (fun r => r.1) = some 0 ∧
    (output.init.add 32 "udp://nosuchhost.invalid:1234,host2".toList sys_first_unresolved
        []).map (fun r => (r.1, r.2.num_targets, r.2.search "host2".toList))
      = some (-1, 0, -1) := by
  decide

/-! ### Lifecycle of one stream: `drain` and `start` -/

theorem drain_wait_all (views : List output_stream) (sleeps : Nat)
    (h : ∀ v ∈ views, v.f_streaming = true ∧ v.ringbuffer.get_capacity ≠ 0) :
    drain_wait views sleeps = none := by
  induction views generalizing sleeps with
  | nil => rfl
  | cons v rest ih =>
    have hv := h v (List.mem_cons_self _ _)
    simp only [drain_wait, if_pos hv]
    exact ih (sleeps + 1) (fun w hw => h w (List.mem_cons_of_mem _ hw))

/-- C16, the code: `drain` returns false at once, without a sleep, on a stream
that is not streaming; on a streaming stream it goes on sleeping for as long as
the stream is streaming and its ring buffer has a capacity, whatever the ring
buffer holds, also when it is empty; and it returns true as soon as the stream
is found not streaming any more, whatever its ring buffer still holds. -/
theorem C16_drain_waits_while_streaming (s : output_stream) (later : List output_stream) :
    (s.f_streaming = false → s.drain later = some (false, 0, s)) ∧
    (s.f_streaming = true →
      (∀ v ∈ s :: later, v.f_streaming = true ∧ v.ringbuffer.get_capacity ≠ 0) →
      s.drain later = none) ∧
    (∀ v : output_stream, s.f_streaming = true → s.ringbuffer.get_capacity ≠ 0 →
      v.f_streaming = false → s.drain (v :: later) = some (true, 1, v)) := by
  refine ⟨fun h => ?_, fun h hall => ?_, fun v h hcap hv => ?_⟩
  · simp [output_stream.drain, h]
  · have hne : ¬ s.f_streaming = false := by rw [h]; decide
    simp only [output_stream.drain, if_neg hne]
    exact drain_wait_all (s :: later) 0 hall
  · have hne : ¬ s.f_streaming = false := by rw [h]; decide
    have hnv : ¬ (v.f_streaming = true ∧ v.ringbuffer.get_capacity ≠ 0) := by
      rw [hv]; simp
    simp only [output_stream.drain, if_neg hne, drain_wait, if_pos (And.intro h hcap),
      if_neg hnv, hv]
    rfl

set_option maxRecDepth 100000 in
/-- C16 witness, the failing inputs: on a streaming stream whose ring buffer is
empty `drain` is still sleeping after four looks at the stream; and once the
stream has stopped with a packet left in its ring buffer `drain` returns
true. -/
theorem C16_drain_waits_while_streaming_witness :
    stream_streaming_empty.ringbuffer.get_size = 0 ∧
    stream_streaming_empty.drain
        [stream_streaming_empty, stream_streaming_empty, stream_streaming_empty] = none ∧
    stream_stopped_full.ringbuffer.get_size = 188 ∧
    stream_streaming_empty.drain [stream_stopped_full]
      = some (true, 1, stream_stopped_full) :=
  ⟨by decide,
   (C16_drain_waits_while_streaming stream_streaming_empty
      [stream_streaming_empty, stream_streaming_empty, stream_streaming_empty]).2.1 rfl
      (by decide),
   by decide,
   (C16_drain_waits_while_streaming stream_streaming_empty []).2.2 stream_stopped_full rfl
      (by decide) rfl⟩

/-- C17: `start` on a stream that is already streaming returns 0, leaves the
stream as it is and launches no worker. Otherwise it launches no worker
exactly when the descriptor is negative and the transport kind is one of UDP,
TCP, HTTP and file, and then it returns the negative descriptor and leaves the
stream, the capacity of its ring buffer included, as it is; in every other
case, so for callback, interface and stdout kinds even with a negative
descriptor, it sets the capacity of the ring buffer to `OUTPUT_STREAM_BUF_SIZE`
and calls `pthread_create`, whose result it returns. -/
theorem C17_start_requires_descriptor (buf_size : Nat) (s : output_stream)
    (pthread_ret : Int) :
    (s.f_streaming = true → s.start buf_size pthread_ret = (0, s, false)) ∧
    (s.f_streaming = false →
      ((s.start buf_size pthread_ret).2.2 = false ↔
        (s.sock < 0 ∧
          (s.stream_method = OUTPUT_STREAM_UDP ∨ s.stream_method = OUTPUT_STREAM_TCP ∨
           s.stream_method = OUTPUT_STREAM_HTTP ∨ s.stream_method = OUTPUT_STREAM_FILE))) ∧
      ((s.start buf_size pthread_ret).2.2 = false →
        s.start buf_size pthread_ret = (s.sock, s, false)) ∧
      ((s.start buf_size pthread_ret).2.2 = true →
        s.start buf_size pthread_ret
          = (pthread_ret,
             { s with ringbuffer := { s.ringbuffer with capacity := buf_size } }, true))) := by
  constructor
  · intro h
    simp [output_stream.start, h]
  · intro h
    have hns : ¬ s.f_streaming = true := by rw [h]; decide
    have hkind : (s.stream_method ≠ OUTPUT_STREAM_FUNC ∧
        s.stream_method ≠ OUTPUT_STREAM_INTF ∧ s.stream_method ≠ OUTPUT_STREAM_STDOUT)
        ↔ (s.stream_method = OUTPUT_STREAM_UDP ∨ s.stream_method = OUTPUT_STREAM_TCP ∨
           s.stream_method = OUTPUT_STREAM_HTTP ∨ s.stream_method = OUTPUT_STREAM_FILE) := by
      cases s.stream_method <;> simp
    by_cases hc : s.sock < 0 ∧
        (s.stream_method ≠ OUTPUT_STREAM_FUNC ∧
         s.stream_method ≠ OUTPUT_STREAM_INTF ∧ s.stream_method ≠ OUTPUT_STREAM_STDOUT)
    · have hc2 := And.intro hc.1 (hkind.mp hc.2)
      have e : s.start buf_size pthread_ret = (s.sock, s, false) := by
        simp only [output_stream.start, if_neg hns, if_pos hc]
      rw [e]
      exact ⟨⟨fun _ => hc2, fun _ => rfl⟩, fun _ => rfl, fun h2 => by simp at h2⟩
    · have hc2 : ¬ (s.sock < 0 ∧
          (s.stream_method = OUTPUT_STREAM_UDP ∨ s.stream_method = OUTPUT_STREAM_TCP ∨
           s.stream_method = OUTPUT_STREAM_HTTP ∨ s.stream_method = OUTPUT_STREAM_FILE)) :=
        fun h2 => hc ⟨h2.1, hkind.mpr h2.2⟩
      have e : s.start buf_size pthread_ret
          = (pthread_ret,
             { s with ringbuffer := { s.ringbuffer with capacity := buf_size } }, true) := by
        simp only [output_stream.start, if_neg hns, if_neg hc, rbuf.set_capacity]
      rw [e]
      exact ⟨⟨fun h2 => by simp at h2, fun h2 => absurd h2 hc2⟩,
        fun h2 => by simp at h2, fun _ => rfl⟩

/-- C17 witness: without a descriptor a stdout stream is started, its capacity
set and a worker launched, while a UDP stream is not. -/
theorem C17_start_requires_descriptor_witness :
    stream_stdout.start 1000 0
      = (0, { stream_stdout with
              ringbuffer := { stream_stdout.ringbuffer with capacity := 1000 } }, true) ∧
    output_stream.init.start 1000 0 = (-1, output_stream.init, false) :=
  ⟨((C17_start_requires_descriptor 1000 stream_stdout 0).2 rfl).2.2 (by decide),
   ((C17_start_requires_descriptor 1000 output_stream.init 0).2 rfl).2.1 (by decide)⟩

/-! ### The termination flag -/

theorem to_uint_natCast (a : Nat) (h : a < UINT_MOD) : to_uint (a : Int) = a := by
  unfold to_uint
  rw [← Int.natCast_mod, Int.toNat_natCast, Nat.mod_eq_of_lt h]

theorem to_int_mod (u : Nat) : to_int (u % UINT_MOD) = to_int u := by
  simp [to_int, Nat.mod_mod]

theorem to_int_of_lt (a : Nat) (h : a < 2 ^ 31) : to_int a = (a : Int) := by
  have hm : a % UINT_MOD = a :=
    Nat.mod_eq_of_lt (lt_trans h (by decide))
  rw [to_int, hm, if_pos h]

theorem to_uint_to_int (u : Nat) : to_uint (to_int u) = u % UINT_MOD := by
  have hlt : u % UINT_MOD < UINT_MOD := Nat.mod_lt _ (by decide)
  unfold to_int
  split
  · exact to_uint_natCast _ hlt
  · unfold to_uint
    rw [Int.sub_emod, Int.emod_self, sub_zero, Int.emod_emod, ← Int.natCast_mod,
      Int.toNat_natCast, Nat.mod_mod]

theorem channels_to_scan_spec (scan_min scan_max : Nat) (hle : scan_min ≤ scan_max)
    (hmax : scan_max + 1 < UINT_MOD) :
    to_uint (channels_to_scan scan_min scan_max) = scan_max - scan_min + 1 := by
  have h1 : scan_max % UINT_MOD = scan_max := Nat.mod_eq_of_lt (by omega)
  have h2 : scan_min % UINT_MOD = scan_min := Nat.mod_eq_of_lt (by omega)
  have h3 : scan_max + (UINT_MOD - scan_min) + 1 = (scan_max - scan_min + 1) + UINT_MOD := by
    omega
  unfold channels_to_scan
  rw [to_uint_to_int, Nat.mod_mod, h1, h2, h3, Nat.add_mod_right]
  exact Nat.mod_eq_of_lt (by omega)

theorem scan_bound_spec (T scan_min n k : Nat) (cts : Int) (hn : 0 < n) (hk : k ≤ T)
    (hov : T * n < UINT_MOD) (hcts : to_uint cts = n) (hs : scan_min + n < UINT_MOD) :
    scan_bound (T : Int) scan_min cts (k : Int) = to_int (scan_min + k * n / T) := by
  have hTn : T ≤ T * n := Nat.le_mul_of_pos_right T hn
  have hkn : k * n ≤ T * n := Nat.mul_le_mul_right n hk
  unfold scan_bound
  rw [to_uint_natCast k (by omega), to_uint_natCast T (by omega), hcts,
    Nat.mod_eq_of_lt (show k * n < UINT_MOD by omega),
    Nat.mod_eq_of_lt (show scan_min < UINT_MOD by omega), to_int_mod]

theorem started_append (a b : List scan_call) : started (a ++ b) = started a ++ started b := by
  simp [started, List.filterMap_append]

theorem started_map_none (f : Int → scan_call) (h : ∀ i, (f i).range = none)
    (l : List Int) : started (l.map f) = [] := by
  induction l with
  | nil => rfl
  | cons x rest ih =>
    unfold started at ih ⊢
    rw [List.map_cons, List.filterMap_cons, h x]
    exact ih

theorem started_flatMap (l : List Int) (a b : Int → Int) (fl s : Nat) (epg : Bool) :
    started (l.flatMap fun i => [scan_call.start_scan i fl (a i) (b i) epg, scan_call.sleep s])
      = l.map fun i => (i, a i, b i) := by
  induction l with
  | nil => rfl
  | cons x rest ih =>
    rw [List.flatMap_cons, started_append, ih]
    rfl

theorem multiscan_started_speed (num_tuners : Int) (fl scan_min scan_max : Nat) (epg : Bool)
    (h : 0 < num_tuners) :
    (multiscan num_tuners 1 fl scan_min scan_max epg).map started =
      some ((tuner_ids num_tuners).map fun i =>
        (i, speed_scan_start num_tuners scan_min scan_max i,
          speed_scan_end num_tuners scan_min scan_max i)) := by
  unfold multiscan
  rw [if_neg (not_le.mpr h)]
  simp only [Option.map_some']
  rw [started_append, started_append, started_append, started_flatMap,
    started_map_none (fun i => scan_call.set_device_ids i i 0 0 0) (fun _ => rfl),
    started_map_none (fun i => scan_call.wait_for_scan_complete i) (fun _ => rfl)]
  simp [started, scan_call.range]

theorem multiscan_started_redundancy (num_tuners : Int) (fl scan_min scan_max : Nat)
    (epg : Bool) (h : 0 < num_tuners) :
    (multiscan num_tuners 2 fl scan_min scan_max epg).map started =
      some ((tuner_ids num_tuners).map fun i => (i, (scan_min : Int), (scan_max : Int))) := by
  unfold multiscan
  rw [if_neg (not_le.mpr h)]
  simp only [Option.map_some']
  rw [started_append, started_append, started_append, started_flatMap,
    started_map_none (fun i => scan_call.set_device_ids i i 0 0 0) (fun _ => rfl),
    started_map_none (fun i => scan_call.wait_for_scan_complete i) (fun _ => rfl)]
  simp [started, scan_call.range]

theorem tuner_ids_natCast (T : Nat) :
    tuner_ids (T : Int) = (List.range T).map (fun (i : Nat) => (i : Int)) := by
  simp [tuner_ids]

/-- In the speed method the range of tuner `i + 1` starts where the range of
tuner `i` ends, whatever the arguments. -/
theorem speed_scan_start_succ (num_tuners : Int) (scan_min scan_max : Nat) (i : Int) :
    speed_scan_start num_tuners scan_min scan_max (i + 1)
      = speed_scan_end num_tuners scan_min scan_max i := by
  unfold speed_scan_start speed_scan_end
  congr 1
  omega

/-- The values of `scan_start` and `scan_end` in the speed method, when no
`unsigned int` operation wraps: the floor formula, converted to `int`. -/
theorem speed_scan_spec (T scan_min scan_max i : Nat) (hi : i < T)
    (hle : scan_min ≤ scan_max) (hmax : scan_max + 1 < UINT_MOD)
    (hov : T * (scan_max - scan_min + 1) < UINT_MOD) :
    speed_scan_start (T : Int) scan_min scan_max (i : Int)
      = to_int (scan_min + i * (scan_max - scan_min + 1) / T) ∧
    speed_scan_end (T : Int) scan_min scan_max (i : Int)
      = to_int (scan_min + (i + 1) * (scan_max - scan_min + 1) / T) := by
  have hc := channels_to_scan_spec scan_min scan_max hle hmax
  have h0 : (0 : Int) + (i : Int) = ((i : Nat) : Int) := by omega
  have h1 : (1 : Int) + (i : Int) = ((i + 1 : Nat) : Int) := by omega
  unfold speed_scan_start speed_scan_end
  rw [h0, h1]
  exact ⟨scan_bound_spec T scan_min _ i _ (by omega) (by omega) hov hc (by omega),
    scan_bound_spec T scan_min _ (i + 1) _ (by omega) (by omega) hov hc (by omega)⟩

/-- Every channel of `[scan_min, scan_min + n - 1]` lies in one of the `T` shares
`[scan_min + i*n/T, scan_min + (i+1)*n/T]`. -/
theorem shares_cover (T scan_min n c : Nat) (hT : 0 < T) (hn : 0 < n)
    (h1 : scan_min ≤ c) (h2 : c < scan_min + n) :
    ∃ i, i < T ∧ scan_min + i * n / T ≤ c ∧ c ≤ scan_min + (i + 1) * n / T := by
  refine ⟨(c - scan_min) * T / n, ?_, ?_, ?_⟩
  · rw [Nat.div_lt_iff_lt_mul hn]
    have : c - scan_min < n := by omega
    calc (c - scan_min) * T < n * T := Nat.mul_lt_mul_of_pos_right this hT
      _ = T * n := Nat.mul_comm _ _
  · have h : (c - scan_min) * T / n * n / T ≤ c - scan_min := by
      apply Nat.div_le_of_le_mul
      rw [Nat.mul_comm T]
      exact Nat.div_mul_le_self _ _
    omega
  · have h : c - scan_min ≤ ((c - scan_min) * T / n + 1) * n / T := by
      rw [Nat.le_div_iff_mul_le hT]
      rw [Nat.mul_comm _ n]
      exact le_of_lt (Nat.lt_mul_div_succ _ hn)
    omega
/-- The bound on `T * n` has to cover the product `(i + 1) * n` of the last
tuner: with four tuners on the channels `0 .. 2^30 - 1` the products `i * n`,
`i < 4`, do not wrap but `4 * n` does, and the last tuner is started on
`[3 * 2^28, 0]`. -/
theorem multiscan_speed_product_wraps :
    (multiscan 4 1 0 0 1073741823 false).map started =
      some [(0, 0, 268435456), (1, 268435456, 536870912), (2, 536870912, 805306368),
        (3, 805306368, 0)] := by
  decide

/-- A bound of `2^31` or more does not survive the assignment to the `int`
variables `scan_start` and `scan_end`: for the single channel `2^31 - 1` the
value of `scan_end` handed to `start_scan` is `-2^31`. -/
theorem multiscan_speed_int_wraps :
    (multiscan 1 1 0 2147483647 2147483647 false).map started =
      some [(0, 2147483647, -2147483648)] := by
  decide

/-- C21 (amended): `multiscan` with `num_tuners = T >= 1`.
With `scan_method` 2 (redundancy) tuner `i` (`0 <= i < T`, in this order) is
started on `[scan_min, scan_max]`, whatever the two values are.
With `scan_method` 1 (speed) the range of tuner `i + 1` always starts at the
value at which the range of tuner `i` ends; and when `scan_min <= scan_max`,
`scan_max + 1 < 2^31` (every bound fits the `int` variables `scan_start` and
`scan_end`) and `T * n < 2^32` for `n = scan_max - scan_min + 1` (no product
`i * n`, `0 <= i <= T`, wraps), tuner `i` is started on
`[scan_min + floor(i*n/T), scan_min + floor((i+1)*n/T)]`: tuner 0 starts at
`scan_min`, the last tuner ends at `scan_min + n = scan_max + 1`, and every
channel from `scan_min` to `scan_max` lies in the range of some tuner. -/
theorem C21_multiscan_ranges (T scan_flags scan_min scan_max : Nat) (scan_epg : Bool)
    (hT : 1 ≤ T) :
    (multiscan (T : Int) 2 scan_flags scan_min scan_max scan_epg).map started =
      some ((List.range T).map fun (i : Nat) => ((i : Int), (scan_min : Int), (scan_max : Int))) ∧
    (∀ i : Int, speed_scan_start (T : Int) scan_min scan_max (i + 1)
      = speed_scan_end (T : Int) scan_min scan_max i) ∧
    (scan_min ≤ scan_max → scan_max + 1 < 2 ^ 31 →
      T * (scan_max - scan_min + 1) < 2 ^ 32 →
      (multiscan (T : Int) 1 scan_flags scan_min scan_max scan_epg).map started =
        some ((List.range T).map fun (i : Nat) =>
          ((i : Int), ((scan_min + i * (scan_max - scan_min + 1) / T : Nat) : Int),
            ((scan_min + (i + 1) * (scan_max - scan_min + 1) / T : Nat) : Int))) ∧
      scan_min + 0 * (scan_max - scan_min + 1) / T = scan_min ∧
      scan_min + T * (scan_max - scan_min + 1) / T = scan_max + 1 ∧
      ∀ c, scan_min ≤ c → c ≤ scan_max → ∃ i, i < T ∧
        scan_min + i * (scan_max - scan_min + 1) / T ≤ c ∧
        c ≤ scan_min + (i + 1) * (scan_max - scan_min + 1) / T) := by
  have hpos : (0 : Int) < (T : Int) := by omega
  refine ⟨?_, fun i => speed_scan_start_succ _ _ _ i, fun hle hmax hov => ⟨?_, ?_, ?_, ?_⟩⟩
  · rw [multiscan_started_redundancy _ _ _ _ _ hpos, tuner_ids_natCast, List.map_map]
    rfl
  · rw [multiscan_started_speed _ _ _ _ _ hpos, tuner_ids_natCast, List.map_map]
    congr 1
    apply List.map_congr_left
    intro i hi
    have hiT : i < T := List.mem_range.mp hi
    have hbound : ∀ k, k ≤ T → scan_min + k * (scan_max - scan_min + 1) / T < 2 ^ 31 := by
      intro k hk
      have : k * (scan_max - scan_min + 1) / T ≤ scan_max - scan_min + 1 :=
        Nat.div_le_of_le_mul (Nat.mul_le_mul_right _ hk)
      omega
    have hs := speed_scan_spec T scan_min scan_max i hiT hle
      (lt_trans hmax (by decide)) hov
    simp only [Function.comp]
    rw [hs.1, hs.2, to_int_of_lt _ (hbound i (by omega)),
      to_int_of_lt _ (hbound (i + 1) (by omega))]
  · simp
  · rw [Nat.mul_div_cancel_left _ (by omega : 0 < T)]
    omega
  · intro c h1 h2
    exact shares_cover T scan_min (scan_max - scan_min + 1) c (by omega) (by omega) h1
      (by omega)

/-- C21 (amended) at three tuners and the channels 2 to 69 (`n = 68`): the
redundancy method starts every tuner on `[2, 69]`, the speed method starts the
tuners on `[2, 24]`, `[24, 47]` and `[47, 70]`. -/
theorem C21_multiscan_ranges_witness :
    (multiscan 3 2 0 2 69 false).map started
      = some [(0, 2, 69), (1, 2, 69), (2, 2, 69)] ∧
    (2 ≤ 69 ∧ 69 + 1 < 2 ^ 31 ∧ 3 * (69 - 2 + 1) < 2 ^ 32) ∧
    (multiscan 3 1 0 2 69 false).map started
      = some [(0, 2, 24), (1, 24, 47), (2, 47, 70)] :=
  ⟨(C21_multiscan_ranges 3 0 2 69 false (by decide)).1.trans (by decide),
   ⟨by decide, by decide, by decide⟩,
   ((C21_multiscan_ranges 3 0 2 69 false (by decide)).2.2 (by decide) (by decide)
      (by decide)).1.trans (by decide)⟩

/-- C21 as stated fails where `scan_max + 1` is not an `unsigned int`: one
tuner, `scan_min = 1`, `scan_max = 2^32 - 1`, hence `n = 2^32 - 1` and no product
`i * n` wraps. The sum `scan_min + n` wraps to 0 and the tuner is started on
`[1, 0]`, not on `[1, 2^32]`. -/
theorem C21_counterexample :
    (multiscan 1 1 0 1 4294967295 false).map started = some [(0, 1, 0)] := by
  decide

end Dvbtee
